import Mathlib

/-!
Verification of the `mxk/go-vss` package (Windows Volume Shadow Copy bindings).

The repository contains two historical revisions of the module.  The current
revision (second half of `vss.go`, plus `wmi.go`) is embedded in the root
namespace below; the earlier revision (first half of `vss.go`, plus the
unnamed wmi source containing `parseDateTime`) is embedded in namespace `V0`
where a claim refers to it.

Modelling conventions:
* Go strings are modelled as `List Char`; the strings handled by this package
  (WQL queries, Windows paths, GUIDs, CIM timestamps) are ASCII, so Go byte
  indexing coincides with character indexing.
* Calls into the operating system (WMI queries, readlink, RemoveDirectory,
  CreateSymbolicLink, volume lookups, COM initialization outcomes) are
  oracles recorded in an `Env` structure; each embedded operation returns its
  result together with the list of observable effects (`Eff`) it performed,
  in order.
* Go `error` values are the inductive `Err`; `fmt.Errorf` with `%w` becomes
  `Err.wrap`, plain errors become `Err.lit`, and `os.ErrPermission` is
  `Err.permission`.
* A Go function that can panic is given result type `GoRes`.
-/

set_option autoImplicit false

namespace GoVss

/-- Convert a Lean string literal to the `List Char` model of Go strings. -/
def str (s : String) : List Char := s.data

/-- Go `error` values, with `fmt.Errorf %w` wrapping and `ole.OleError`. -/
inductive Err where
  /-- `os.ErrPermission` -/
  | permission
  /-- an `*ole.OleError` carrying an HRESULT code -/
  | oleErr (code : Int)
  /-- `fmt.Errorf("msg (%w)", inner)` -/
  | wrap (msg : List Char) (inner : Err)
  /-- any other error with a fixed message -/
  | lit (msg : List Char)
  deriving DecidableEq, Repr

/-- Go `errors.Is`: the target is the error itself or appears in its
`Unwrap` chain. -/
def errIs : Err → Err → Bool
  | e, t =>
    (e == t) ||
      match e with
      | .wrap _ inner => errIs inner t
      | _ => false

/-- Observable effects of the embedded operations, in program order. -/
inductive Eff where
  | lockThread
  | unlockThread
  | coInit
  | coUninit
  /-- `ole.CreateInstance(clsid, iid)` -/
  | createInstance (clsid iid : List Char)
  /-- `SWbemLocator.ConnectServer(nil, namespace)` -/
  | connectServer (ns : List Char)
  | releaseServices
  /-- `SWbemServices.ExecQuery(wql, "WQL", flags)` -/
  | execQuery (wql : List Char)
  /-- `SWbemServices.CallMethod("Get", cls)` -/
  | callGetClass (cls : List Char)
  /-- `Win32_ShadowCopy.Create(vol, "ClientAccessible", &id)` -/
  | callCreate (vol : List Char)
  /-- `SWbemServices.CallMethod("Delete", objPath)` -/
  | callDelete (objPath : List Char)
  /-- `syscall.Readlink(path, buf)` -/
  | readlink (path : List Char)
  /-- `syscall.RemoveDirectory(path)` -/
  | removeDirectory (path : List Char)
  /-- `syscall.CreateSymbolicLink(link, target, DIRECTORY)` -/
  | createSymbolicLink (link target : List Char)
  /-- `windows.GetVolumeNameForVolumeMountPoint(vol, ...)` -/
  | mountPointLookup (vol : List Char)
  /-- `windows.AllocateAndInitializeSid(...)` -/
  | allocSid
  /-- `windows.Token(0).IsMember(AdministratorsGroup)` -/
  | checkMembership
  /-- `windows.FreeSid(...)` -/
  | freeSid
  deriving DecidableEq, Repr

/-! ## go-ole v1.3.0 GUIDs

`ole.GUID` holds `Data1..Data4`; `NewGUID` decodes the 38-, 36- or 32-char
forms, and `GUID.String` renders the canonical braced uppercase form.  The
numeric fields are printed back in the same hex-digit order they were decoded
from, so a GUID is modelled as its list of 32 hex-digit values (each < 16).
-/

/-- Value of an ASCII hex digit, as accepted by go-ole `decodeHexChar`
(digits, lowercase and uppercase letters). -/
def hexVal (c : Char) : Option Nat :=
  if '0' ≤ c ∧ c ≤ '9' then some (c.toNat - 48)
  else if 'a' ≤ c ∧ c ≤ 'f' then some (c.toNat - 97 + 10)
  else if 'A' ≤ c ∧ c ≤ 'F' then some (c.toNat - 65 + 10)
  else none

/-- Uppercase hex digit character, as used by go-ole when formatting
(`hextable = "0123456789ABCDEF"`). -/
def hexChar (v : Nat) : Char :=
  (str "0123456789ABCDEF").getD v '0'

/-- Decode `k` hex digits from the front of `s`, returning their values and
the rest of `s`. -/
def readHex : Nat → List Char → Option (List Nat × List Char)
  | 0, s => some ([], s)
  | _ + 1, [] => none
  | k + 1, c :: s =>
    match hexVal c with
    | none => none
    | some v =>
      match readHex k s with
      | none => none
      | some (vs, rest) => some (v :: vs, rest)

/-- A GUID is its 32 hex-digit values in reading order. -/
abbrev GUID := List Nat

/-- The dashed 36-char body: 8-4-4-4-12 hex digits with dashes between the
groups.  Decodes to the nibble list exactly as go-ole `NewGUID` fills
`Data1..Data4` from `d[0:8]`, `d[9:13]`, `d[14:18]`, `d[19:23]`, `d[24:36]`
after checking the dash positions. -/
def decodeDashed (d : List Char) : Option GUID :=
  match readHex 8 d with
  | none => none
  | some (a, d) =>
    match d with
    | '-' :: d =>
      match readHex 4 d with
      | none => none
      | some (b, d) =>
        match d with
        | '-' :: d =>
          match readHex 4 d with
          | none => none
          | some (c, d) =>
            match d with
            | '-' :: d =>
              match readHex 4 d with
              | none => none
              | some (e, d) =>
                match d with
                | '-' :: d =>
                  match readHex 12 d with
                  | none => none
                  | some (f, d) =>
                    match d with
                    | [] => some (a ++ b ++ c ++ e ++ f)
                    | _ => none
                | _ => none
            | _ => none
        | _ => none
    | _ => none

/-- go-ole `ole.NewGUID`: accepts `{xxxxxxxx-xxxx-xxxx-xxxx-xxxxxxxxxxxx}`
(38 chars), the same without braces (36 chars), or 32 plain hex digits;
returns `none` for anything else. -/
def newGUID (s : List Char) : Option GUID :=
  if s.length = 38 then
    match s with
    | '{' :: rest =>
      if rest.getLast? = some '}' then decodeDashed (rest.dropLast) else none
    | _ => none
  else if s.length = 36 then decodeDashed s
  else if s.length = 32 then
    match readHex 32 s with
    | some (vs, []) => some vs
    | _ => none
  else none

/-- The 36-char dashed body written by go-ole `GUID.String` between the
braces: `Data1` (8 digits), `Data2`, `Data3`, `Data4[0:2]` (4 digits each)
and `Data4[2:8]` (12 digits). -/
def guidBody (g : GUID) : List Char :=
  ((g.take 8).map hexChar)
    ++ '-' :: (((g.drop 8).take 4).map hexChar)
    ++ '-' :: (((g.drop 12).take 4).map hexChar)
    ++ '-' :: (((g.drop 16).take 4).map hexChar)
    ++ '-' :: (((g.drop 20).take 12).map hexChar)

/-- go-ole `GUID.String`: canonical braced, dashed, uppercase form. -/
def guidString (g : GUID) : List Char :=
  '{' :: guidBody g ++ ['}']

/-! ## String helpers used by the package -/

/-- ASCII decimal digit test (`'0' <= c && c <= '9'`). -/
def isDig (c : Char) : Bool := '0' ≤ c ∧ c ≤ '9'

/-- Numeric value of an ASCII digit (`c - '0'`). -/
def dval (c : Char) : Nat := c.toNat - 48

/-- Go `fmt %q` on a string: wrap in double quotes, escaping backslashes and
quotes.  The strings quoted by this package are printable ASCII, for which
this is the complete `strconv.Quote` behaviour. -/
def goQuote (s : List Char) : List Char :=
  '"' :: (s.flatMap fun c => if c = '"' ∨ c = '\\' then ['\\', c] else [c]) ++ ['"']

/-- Go `filepath.FromSlash`: replace each forward slash with a backslash. -/
def fromSlash (s : List Char) : List Char :=
  s.map fun c => if c = '/' then '\\' else c

/-- ASCII lowercasing of a character, matching `strings.EqualFold` on the
ASCII strings this package compares. -/
def lowerAscii (c : Char) : Char :=
  if 'A' ≤ c ∧ c ≤ 'Z' then Char.ofNat (c.toNat + 32) else c

/-- `strings.EqualFold` restricted to ASCII, which is all this package folds. -/
def equalFold (a b : List Char) : Bool :=
  a.map lowerAscii == b.map lowerAscii

/-- vss `hasPrefixFold`: case-insensitive ASCII prefix test
(`len(s) >= len(prefix) && strings.EqualFold(s[0:len(prefix)], prefix)`). -/
def hasPrefixFold (s pfx : List Char) : Bool :=
  decide (pfx.length ≤ s.length) && equalFold (s.take pfx.length) pfx

/-- `strings.HasPrefix` (case-sensitive). -/
def hasPrefix (s pfx : List Char) : Bool := pfx.isPrefixOf s

/-- `strings.TrimSuffix(s, "\\")`: drop one trailing backslash if present. -/
def trimBackslash (s : List Char) : List Char :=
  if s.getLast? = some '\\' then s.dropLast else s

/-- Result of a Go computation that may panic (index out of range). -/
inductive GoRes (α : Type) where
  | panicked (msg : List Char)
  | ok (a : α)
  deriving DecidableEq, Repr

/-! ## `strconv.Atoi` and the `time` package internals used by `parseDateTime`

`parseDateTime` (earlier revision, wmi source) calls `strconv.Atoi` on the
4-char offset suffix and `time.ParseInLocation` with the fixed layout
`"20060102150405.000000"`.  The definitions below transcribe the Go 1.21
behaviour of those calls on this fixed layout.
-/

/-- All characters are ASCII digits. -/
def allDigits (s : List Char) : Bool := s.all isDig

/-- Decimal value of a digit string. -/
def digitsVal (s : List Char) : Nat := s.foldl (fun n c => n * 10 + dval c) 0

/-- `strconv.Atoi` for short strings (the package applies it to 4 chars):
an optional single sign, then at least one digit, all digits. -/
def goAtoi (s : List Char) : Option Int :=
  match s with
  | [] => none
  | c :: rest =>
    let neg := c = '-'
    let ds := if c = '-' ∨ c = '+' then rest else s
    if ds = [] ∨ ¬ allDigits ds then none
    else some (if neg then -(digitsVal ds : Int) else (digitsVal ds : Int))

/-- The `time` package internal `atoi`: optional sign, then `leadingInt`,
which must consume the whole rest.  Unlike `strconv.Atoi` it accepts an
empty digit string (yielding 0). -/
def timeAtoi (s : List Char) : Option Int :=
  let neg := s.headD ' ' = '-'
  let ds := if s.headD ' ' = '-' ∨ s.headD ' ' = '+' then s.drop 1 else s
  if allDigits ds then some (if neg then -(digitsVal ds : Int) else (digitsVal ds : Int))
  else none

/-- The `time` package `getnum`: one or two digits (`fixed` forces two). -/
def getnum (fixed : Bool) : List Char → Option (Nat × List Char)
  | [] => none
  | [c] => if isDig c then (if fixed then none else some (dval c, [])) else none
  | c1 :: c2 :: rest =>
    if ¬ isDig c1 then none
    else if ¬ isDig c2 then
      (if fixed then none else some (dval c1, c2 :: rest))
    else some (dval c1 * 10 + dval c2, rest)

/-- The `stdLongYear` (`"2006"`) chunk: at least 4 chars, the first a digit,
then `atoi` of those 4 chars (so all four must be digits). -/
def parseYear : List Char → Option (Nat × List Char)
  | c1 :: c2 :: c3 :: c4 :: rest =>
    if isDig c1 ∧ isDig c2 ∧ isDig c3 ∧ isDig c4 then
      some (digitsVal [c1, c2, c3, c4], rest)
    else none
  | _ => none

/-- The `stdFracSecond0` (`".000000"`) chunk via `parseNanoseconds`: a period
or comma, then `atoi` of the next 6 chars, which must be nonnegative; the
result is scaled to nanoseconds (a factor of 1000 for 6 digits). -/
def parseFrac : List Char → Option (Nat × List Char)
  | c0 :: c1 :: c2 :: c3 :: c4 :: c5 :: c6 :: rest =>
    if c0 = '.' ∨ c0 = ',' then
      match timeAtoi [c1, c2, c3, c4, c5, c6] with
      | some ns => if 0 ≤ ns then some (ns.toNat * 1000, rest) else none
      | none => none
    else none
  | _ => none

/-- Go `isLeap`. -/
def isLeap (y : Nat) : Bool := y % 4 = 0 ∧ (y % 100 ≠ 0 ∨ y % 400 = 0)

/-- Go `daysIn(m, year)`: number of days in a month. -/
def daysIn (m y : Nat) : Nat :=
  if m = 2 then (if isLeap y then 29 else 28)
  else if m = 4 ∨ m = 6 ∨ m = 9 ∨ m = 11 then 30
  else 31

/-- A parsed calendar timestamp. -/
structure CivilTime where
  year : Nat
  month : Nat
  day : Nat
  hour : Nat
  minute : Nat
  second : Nat
  nanos : Nat
  deriving DecidableEq, Repr

/-- Go 1.21 `time.Parse` specialized to the constant layout
`"20060102150405.000000"`: year, zero-padded month/day, hour (`"15"`, not
forced to two digits), zero-padded minute/second, 6-digit fraction; inline
range checks for hour/minute/second, month and day-in-month checks after the
loop, and no text may remain.  (The seconds lookahead for an unexpected
fraction is a no-op here because the layout itself continues with
`".000000"`.)  All failures collapse into one error in `parseDateTime`. -/
def parseCivil (v : List Char) : Option CivilTime :=
  match parseYear v with
  | none => none
  | some (y, v) =>
    match getnum true v with
    | none => none
    | some (mo, v) =>
      match getnum true v with
      | none => none
      | some (d, v) =>
        match getnum false v with
        | none => none
        | some (h, v) =>
          if 24 ≤ h then none else
          match getnum true v with
          | none => none
          | some (mi, v) =>
            if 60 ≤ mi then none else
            match getnum true v with
            | none => none
            | some (s, v) =>
              if 60 ≤ s then none else
              match parseFrac v with
              | none => none
              | some (ns, v) =>
                if v ≠ [] then none
                else if mo < 1 ∨ 12 < mo then none
                else if d < 1 ∨ daysIn mo y < d then none
                else some ⟨y, mo, d, h, mi, s, ns⟩

/-- Days from the Unix epoch to the given proleptic Gregorian civil date
(the standard era-based computation, equal to what `time.Date` uses). -/
def daysFromCivil (y : Int) (m d : Int) : Int :=
  let y := if m ≤ 2 then y - 1 else y
  let era : Int := (if 0 ≤ y then y else y - 399) / 400
  let yoe := y - era * 400
  let mp := (m + 9) % 12
  let doy := (153 * mp + 2) / 5 + d - 1
  let doe := yoe * 365 + yoe / 4 - yoe / 100 + doy
  era * 146097 + doe - 719468

/-- `time.Date(y, mo, d, h, mi, s, ns, FixedZone("", offMin*60)).UnixNano()`:
the civil fields denote local time in a zone `offMin` minutes east of UTC. -/
def civilToUnixNanos (t : CivilTime) (offMin : Int) : Int :=
  (daysFromCivil t.year t.month t.day * 86400
      + t.hour * 3600 + t.minute * 60 + t.second - offMin * 60) * 1000000000
    + t.nanos

/-- vss `parseDateTime` (earlier revision, wmi source, lines 178-197),
returning the instant as Unix nanoseconds.  The final `t.Local()` conversion
changes only the presentation zone, not the instant, so it is the identity in
this model. -/
def parseDateTime (dt : List Char) : Except Err Int :=
  -- const sign = 21
  if dt.length ≠ 21 + 4 ∨ (dt.get? 21 ≠ some '-' ∧ dt.get? 21 ≠ some '+') then
    .error (.lit (str "vss: invalid datetime: " ++ dt))
  else
    match goAtoi (dt.drop 21) with
    | none => .error (.lit (str "vss: invalid UTC offset: " ++ dt))
    | some off =>
      if off < -720 ∨ 720 < off then
        .error (.lit (str "vss: invalid UTC offset: " ++ dt))
      else
        match parseCivil (dt.take 21) with
        | none => .error (.lit (str "vss: failed to parse datetime: " ++ dt))
        | some t => .ok (civilToUnixNanos t off)

/-! ## Spec-side definitions for the CIM datetime claim

These two definitions follow the words of the claim, not the code: a
25-character string of the form `yyyymmddHHMMSS.mmmmmm` followed by a sign
and a three-digit offset, and the instant such a timestamp denotes when
interpreted in the fixed zone at that offset. -/

/-- Zero-padded `k`-digit decimal rendering of `n`. -/
def pad : Nat → Nat → List Char
  | 0, _ => []
  | k + 1, n => pad k (n / 10) ++ [(str "0123456789").getD (n % 10) '0']

/-- Spec-side: the CIM datetime string `yyyymmddHHMMSS.mmmmmm±UUU` built from
its fields (`neg` selects the sign character). -/
def renderCIM (y mo d h mi s micro : Nat) (neg : Bool) (off : Nat) : List Char :=
  pad 4 y ++ pad 2 mo ++ pad 2 d ++ pad 2 h ++ pad 2 mi ++ pad 2 s
    ++ '.' :: pad 6 micro ++ (if neg then '-' else '+') :: pad 3 off

/-- Spec-side: the instant (Unix nanoseconds) denoted by the timestamp
interpreted in the fixed zone `±off` minutes east of UTC. -/
def cimDenotedNanos (y mo d h mi s micro : Nat) (neg : Bool) (off : Nat) : Int :=
  (daysFromCivil y mo d * 86400 + h * 3600 + mi * 60 + s
      - (if neg then -(off : Int) else (off : Int)) * 60) * 1000000000
    + micro * 1000

/-! ## Spec-side definitions for the canonical volume-name claim -/

/-- Spec-side (from the claim): a string of the canonical
`\\\\?\\Volume{GUID}` form without its trailing backslash: 48 characters,
the literal prefix, then a 36-char dashed GUID body, then the closing
brace. -/
def isCanonVolNoSlash (s : List Char) : Bool :=
  decide (s.length = 48) && hasPrefix s (str "\\\\?\\Volume\x7b") &&
    (decodeDashed ((s.drop 11).take 36)).isSome && decide (s.getLast? = some '}')

/-- Spec-side: a string of the canonical `\\\\?\\Volume{GUID}\\` form
including the trailing backslash. -/
def isCanonVol (s : List Char) : Bool :=
  decide (s.getLast? = some '\\') && isCanonVolNoSlash s.dropLast

/-! ## Go 1.21 `path/filepath` `Clean` on Windows

`get` (current revision) applies `filepath.Clean` to non-GUID names.  The
definitions below transcribe Go 1.21 `filepath.Clean`, `volumeNameLen` and
the `lazybuf` it uses.  One representational note: the Go `lazybuf` keeps a
byte array of the full input length and a write index `w`; this model keeps
the written characters as a list (`take w` at read boundaries), which agrees
with the array everywhere the algorithm reads it.
-/

/-- `isSlash` / `os.IsPathSeparator` on Windows. -/
def isSlashChar (c : Char) : Bool := c = '\\' || c = '/'

/-- ASCII `toUpper` from `path/filepath`. -/
def upperAscii (c : Char) : Char :=
  if 'a' ≤ c ∧ c ≤ 'z' then Char.ofNat (c.toNat - 32) else c

/-- `pathHasPrefixFold`: prefix test ignoring case and slash direction; a
longer string must continue with a separator. -/
def pathHasPrefixFold (s pfx : List Char) : Bool :=
  if s.length < pfx.length then false
  else
    ((s.take pfx.length).zip pfx).all
        (fun ap =>
          if isSlashChar ap.2 then isSlashChar ap.1
          else upperAscii ap.1 == upperAscii ap.2)
      && (decide (s.length = pfx.length) || isSlashChar (s.getD pfx.length ' '))

/-- Helper for `uncLen`: index of the second separator at or after the start
index, else the total length. -/
def uncLenFrom : List Char → Nat → Nat → Nat → Nat
  | [], _, _, total => total
  | c :: rest, i, count, total =>
    if isSlashChar c then
      if count + 1 = 2 then i else uncLenFrom rest (i + 1) (count + 1) total
    else uncLenFrom rest (i + 1) count total

/-- `uncLen`: length of the volume portion of a UNC path (two path elements
past the prefix). -/
def uncLen (path : List Char) (pfxLen : Nat) : Nat :=
  uncLenFrom (path.drop pfxLen) pfxLen 0 path.length

/-- `cutPath`: split around the first path separator. -/
def cutPath : List Char → List Char × List Char × Bool
  | [] => ([], [], false)
  | c :: rest =>
    if isSlashChar c then ([], rest, true)
    else
      let (b, a, f) := cutPath rest
      (c :: b, a, f)

/-- Go 1.21 `volumeNameLen` for Windows. -/
def volumeNameLen (path : List Char) : Nat :=
  if 2 ≤ path.length ∧ path.getD 1 ' ' = ':' then 2
  else if path.length = 0 ∨ ¬ isSlashChar (path.headD ' ') then 0
  else if pathHasPrefixFold path (str "\\\\.\\UNC") then uncLen path 8
  else if pathHasPrefixFold path (str "\\\\.") ∨ pathHasPrefixFold path (str "\\\\?")
      ∨ pathHasPrefixFold path (str "\\??") then
    -- DOS device path or root local device path: the volume is the prefix
    -- plus the next path element
    if path.length = 3 then 3
    else
      let (_, rest, found) := cutPath (path.drop 4)
      if ¬ found then path.length else path.length - rest.length - 1
  else if 2 ≤ path.length ∧ isSlashChar (path.getD 1 ' ') then uncLen path 2
  else 0

/-- The `lazybuf` of `filepath.Clean`: `path` is the post-volume input, `buf`
the materialized output (copy-on-write), `w` the write index. -/
structure Lazybuf where
  path : List Char
  buf : Option (List Char)
  w : Nat
  deriving Repr

/-- `lazybuf.index`. -/
def lbIndex (b : Lazybuf) (i : Nat) : Char :=
  match b.buf with
  | some content => content.getD i ' '
  | none => b.path.getD i ' '

/-- `lazybuf.append`. -/
def lbAppend (b : Lazybuf) (c : Char) : Lazybuf :=
  match b.buf with
  | none =>
    if b.w < b.path.length ∧ b.path.getD b.w ' ' = c then { b with w := b.w + 1 }
    else { b with buf := some (b.path.take b.w ++ [c]), w := b.w + 1 }
  | some content => { b with buf := some (content.take b.w ++ [c]), w := b.w + 1 }

/-- `lazybuf.string` prefixed with the volume. -/
def lbString (vol : List Char) (b : Lazybuf) : List Char :=
  match b.buf with
  | none => vol ++ b.path.take b.w
  | some content => vol ++ content.take b.w

/-- The backtracking loop of the `..` case:
`for out.w > dotdot && !sep(out.index(out.w)) { out.w-- }`. -/
def backtrackW (out : Lazybuf) (dotdot : Nat) : Nat → Nat
  | 0 => 0
  | w + 1 =>
    if dotdot < w + 1 ∧ ¬ isSlashChar (lbIndex out (w + 1)) then backtrackW out dotdot w
    else w + 1

/-- The main loop of `filepath.Clean`, reading from index `r`.  The first
argument is structural-recursion fuel: every iteration advances `r` by at
least one, so any fuel of at least `n` steps (the top-level call passes `n`)
runs the loop to completion exactly as the Go `for` loop does. -/
def cleanLoop (path : List Char) (n : Nat) (rooted : Bool) :
    Nat → Nat → Nat → Lazybuf → Lazybuf
  | 0, _, _, out => out
  | fuel + 1, r, dotdot, out =>
    if _h : r < n then
      let c := path.getD r ' '
      if isSlashChar c then
        -- empty path element
        cleanLoop path n rooted fuel (r + 1) dotdot out
      else if c = '.' ∧ (r + 1 = n ∨ isSlashChar (path.getD (r + 1) ' ')) then
        -- "." element
        cleanLoop path n rooted fuel (r + 1) dotdot out
      else if c = '.' ∧ path.getD (r + 1) ' ' = '.'
          ∧ (r + 2 = n ∨ isSlashChar (path.getD (r + 2) ' ')) then
        -- ".." element: backtrack, or append ".." when not rooted
        let st :=
          if dotdot < out.w then
            ({ out with w := backtrackW out dotdot (out.w - 1) }, dotdot)
          else if ¬ rooted then
            let out := if 0 < out.w then lbAppend out '\\' else out
            let out := lbAppend (lbAppend out '.') '.'
            (out, out.w)
          else (out, dotdot)
        cleanLoop path n rooted fuel (r + 2) st.2 st.1
      else
        -- real path element: separator if needed, then copy the element
        let out :=
          if (rooted ∧ out.w ≠ 1) ∨ (¬ rooted ∧ out.w ≠ 0) then lbAppend out '\\'
          else out
        let elem := c :: (path.drop (r + 1)).takeWhile (fun c => ¬ isSlashChar c)
        let out := elem.foldl lbAppend out
        cleanLoop path n rooted fuel (r + elem.length) dotdot out
    else out

/-- Go 1.21 `postClean`: avoid turning a relative path into a rooted or
drive-relative one.  (The Go code scans its full backing array; the bytes
past the written region there are zeros or stale bytes that the inputs
handled in this development never make significant.) -/
def postCleanLB (volLen : Nat) (out : Lazybuf) : Lazybuf :=
  match out.buf with
  | none => out
  | some content =>
    if volLen ≠ 0 then out
    else if (content.takeWhile (fun c => ¬ isSlashChar c)).contains ':' then
      { out with buf := some ('.' :: '\\' :: content), w := out.w + 2 }
    else if 3 ≤ content.length ∧ isSlashChar (content.getD 0 ' ')
        ∧ content.getD 1 ' ' = '?' ∧ content.getD 2 ' ' = '?'
        ∧ (content.length = 3 ∨ isSlashChar (content.getD 3 ' ')) then
      { out with buf := some ('\\' :: '.' :: content), w := out.w + 2 }
    else out

/-- Go 1.21 `filepath.Clean` on Windows. -/
def cleanPath (path0 : List Char) : List Char :=
  let volLen := volumeNameLen path0
  let vol := path0.take volLen
  let path := path0.drop volLen
  if path = [] then
    if 1 < volLen ∧ isSlashChar (path0.getD 0 ' ') ∧ isSlashChar (path0.getD 1 ' ') then
      fromSlash path0
    else path0 ++ ['.']
  else
    let rooted := isSlashChar (path.headD ' ')
    let st0 : Lazybuf := ⟨path, none, 0⟩
    let start := if rooted then (lbAppend st0 '\\', 1, 1) else (st0, 0, 0)
    let stF := cleanLoop path path.length rooted path.length start.2.1 start.2.2 start.1
    let stF := if stF.w = 0 then lbAppend stF '.' else stF
    let stF := postCleanLB volLen stF
    fromSlash (lbString vol stF)

/-! ## The COM/WMI session layer (`wmi.go`, current revision)

The operating system and WMI are an oracle environment `Env`.  A WMI object
is modelled by its `GetProperty` behaviour.  Embedded operations return
their Go result paired with the list of effects they performed. -/

/-- A WMI result object: `GetProperty(name)` returns a string value or an
error. -/
def WmiObj := List Char → Except Err (List Char)

/-- Outcome of `ole.CoInitializeEx` (go-ole returns `nil` for `S_OK`, an
`*ole.OleError` for any other HRESULT; `other` covers the non-`OleError`
branch of `errors.As`). -/
inductive CoInitOutcome where
  | ok
  | oleCode (code : Int)
  | other (e : Err)

/-- Oracle environment: the Administrators-membership result and the
outcomes of every OS and WMI call the package can make. -/
structure Env where
  /-- the (cached) result of `isAdmin()`; see the `isAdmin` model below -/
  admin : Bool
  coInit : CoInitOutcome
  /-- `ole.CreateInstance(clsidSWbemLocator, iidISWbemLocator)` -/
  createLocator : Except Err Unit
  /-- `SWbemLocator.ConnectServer(nil, ns)` -/
  connect : Except Err Unit
  /-- `ExecQuery(wql, "WQL", flags)`: the result set for a WQL string -/
  query : List Char → Except Err (List WmiObj)
  /-- `SWbemServices.CallMethod("Get", "Win32_ShadowCopy")` -/
  getClass : Except Err Unit
  /-- `Win32_ShadowCopy.Create(vol, "ClientAccessible", &id)`: return code
  and the `id` output string -/
  createSC : List Char → Except Err (Int × List Char)
  /-- `SWbemServices.CallMethod("Delete", objPath)` -/
  deleteSC : List Char → Except Err Unit
  /-- `syscall.Readlink`: the link target -/
  readlinkRes : List Char → Except Err (List Char)
  /-- `syscall.RemoveDirectory` -/
  removeDirRes : List Char → Except Err Unit
  /-- `syscall.CreateSymbolicLink(link, target, DIRECTORY)` -/
  symlinkRes : List Char → List Char → Except Err Unit
  /-- `windows.GetVolumeNameForVolumeMountPoint` -/
  mountVol : List Char → Except Err (List Char)

/-- `clsidSWbemLocator` from `wmi.go`. -/
def clsidSWbemLocator : List Char := str "{76A64158-CB41-11D1-8B02-00600806D9B6}"

/-- `iidISWbemLocator` from `wmi.go`. -/
def iidISWbemLocator : List Char := str "{76A6415B-CB41-11D1-8B02-00600806D9B6}"

/-- The WMI namespace passed to `ConnectServer`. -/
def nsCIMV2 : List Char := str "root\\CIMV2"

/-- `initCOM` (current revision): lock the OS thread, `CoInitializeEx`; an
`OleError` with code `S_OK` (0) or `S_FALSE` (1) counts as success; on
failure the deferred unlock runs and the raw error is returned.  `.ok ()`
means the `uninit` function was returned. -/
def initCOM (env : Env) : Except Err Unit × List Eff :=
  match env.coInit with
  | .ok => (.ok (), [.lockThread, .coInit])
  | .oleCode c =>
    if c = 0 ∨ c = 1 then (.ok (), [.lockThread, .coInit])
    else (.error (.oleErr c), [.lockThread, .coInit, .unlockThread])
  | .other e => (.error e, [.lockThread, .coInit, .unlockThread])

/-- `connectServer`: create the `SWbemLocator` instance and call
`ConnectServer(nil, "root\CIMV2")`. -/
def connectServer (env : Env) : Except Err Unit × List Eff :=
  match env.createLocator with
  | .error e =>
    (.error (.wrap (str "vss: failed to create SWbemLocator") e),
      [.createInstance clsidSWbemLocator iidISWbemLocator])
  | .ok _ =>
    match env.connect with
    | .error e =>
      (.error (.wrap (str "vss: ConnectServer failed") e),
        [.createInstance clsidSWbemLocator iidISWbemLocator, .connectServer nsCIMV2])
    | .ok _ =>
      (.ok (),
        [.createInstance clsidSWbemLocator iidISWbemLocator, .connectServer nsCIMV2])

/-- `wmiExec` (current revision): on `initCOM` success the deferred
`uninit` (CoUninitialize + unlock) runs on every exit path; on
`connectServer` success the deferred `s.Release()` runs before it.  The
callback is its result paired with its effects. -/
def wmiExec {α : Type} (env : Env) (fn : Except Err α × List Eff) :
    Except Err α × List Eff :=
  match initCOM env with
  | (.error e, t) => (.error e, t)
  | (.ok _, t0) =>
    match connectServer env with
    | (.error e, t1) => (.error e, t0 ++ t1 ++ [.coUninit, .unlockThread])
    | (.ok _, t1) =>
      (fn.1, t0 ++ t1 ++ fn.2 ++ [.releaseServices, .coUninit, .unlockThread])

/-- The iteration inside `queryOne`: `oleutil.ForEach` over the result set
with the closure state (`ok` is `acc.isSome`); iteration stops at the first
error.  A second object while `ok` yields the multiple-matches error. -/
def queryOneLoop {α : Type} (wql : List Char) (fn : WmiObj → Except Err α) :
    List WmiObj → Option α → Except Err (Option α)
  | [], acc => .ok acc
  | v :: rest, acc =>
    match acc with
    | some _ => .error (.lit (str "vss: multiple matches: " ++ wql))
    | none =>
      match fn v with
      | .error e => .error e
      | .ok out => queryOneLoop wql fn rest (some out)

/-- `queryOne`: run `execQuery` (an `ExecQuery` failure is wrapped as
`vss: ExecQuery failed`), iterate with `queryOneLoop`, and turn an empty
result set into the not-found error. -/
def queryOne {α : Type} (env : Env) (wql : List Char) (fn : WmiObj → Except Err α) :
    Except Err α × List Eff :=
  match env.query wql with
  | .error e => (.error (.wrap (str "vss: ExecQuery failed") e), [.execQuery wql])
  | .ok objs =>
    (match queryOneLoop wql fn objs none with
      | .error e => .error e
      | .ok none => .error (.lit (str "vss: not found: " ++ wql))
      | .ok (some out) => .ok out,
      [.execQuery wql])

/-! ## The current revision of `vss.go` -/

/-- `errNotAdmin`: wraps `os.ErrPermission`. -/
def errNotAdmin : Err :=
  .wrap (str "vss: do not have Administrators group privileges") .permission

/-- Oracle inputs of the `isAdmin` closure: the outcome of
`AllocateAndInitializeSid` and of `Token(0).IsMember`. -/
structure AdminEnv where
  allocSid : Except Err Unit
  isMember : Bool × Option Err

/-- The function wrapped by `sync.OnceValue` in `isAdmin`: SID allocation
failure yields `false`; otherwise the deferred `FreeSid` runs after
`IsMember`, and the result is `ok && err == nil`. -/
def isAdminOnceBody (env : AdminEnv) : Bool × List Eff :=
  match env.allocSid with
  | .error _ => (false, [.allocSid])
  | .ok _ => (env.isMember.1 && env.isMember.2.isNone, [.allocSid, .checkMembership, .freeSid])

/-- `isAdmin = sync.OnceValue(...)`: the cell holds the cached value; the
body runs only when the cell is empty. -/
def isAdmin (env : AdminEnv) (cell : Option Bool) : Bool × Option Bool × List Eff :=
  match cell with
  | some v => (v, some v, [])
  | none =>
    let r := isAdminOnceBody env
    (r.1, some r.1, r.2)

/-- `ShadowCopy` (current revision).  `InstallDate` keeps the raw CIM string
value of the property. -/
structure ShadowCopy where
  ID : List Char
  InstallDate : List Char
  DeviceObject : List Char
  VolumeName : List Char
  deriving DecidableEq, Repr

/-- `scSelect` constant. -/
def scSelect : List Char := str "SELECT ID,InstallDate,DeviceObject,VolumeName FROM Win32_ShadowCopy"

/-- `scDevPrefix` constant (`\\?\GLOBALROOT\Device\HarddiskVolumeShadowCopy`). -/
def scDevRoot : List Char := str "\\\\?\\GLOBALROOT\\Device\\HarddiskVolumeShadowCopy"

/-- Modelled from the spec: `getProp` and `tryGetProp` (their defining file
is not under `src/`; `unpack` in `vss.go` and the wmi tests are their only
appearances).  Per the query executor description, `getProp` extracts a
typed property value, failing when the property cannot be read, and
`tryGetProp` ignores the failure leaving the destination zero.  `unpack`
requires `ID` and fills the remaining fields best-effort. -/
def unpack (v : WmiObj) : Except Err ShadowCopy :=
  match v (str "ID") with
  | .error e => .error e
  | .ok id =>
    .ok { ID := id
          InstallDate := (v (str "InstallDate")).toOption.getD []
          DeviceObject := (v (str "DeviceObject")).toOption.getD []
          VolumeName := (v (str "VolumeName")).toOption.getD [] }

/-- The shared query of `get`: `queryOne` with `unpack` under `wmiExec`,
returning the `ShadowCopy` and the symlink path (empty when `name` was not
a symlink). -/
def getByDev (env : Env) (wql symlink : List Char) :
    Except Err (ShadowCopy × List Char) × List Eff :=
  match wmiExec env (queryOne env wql unpack) with
  | (.error e, t) => (.error e, t)
  | (.ok sc, t) => (.ok (sc, symlink), t)

/-- `get` (current revision): GUID names query by ID; otherwise the name is
`filepath.Clean`ed, and unless it already carries the shadow-copy device
prefix it is resolved with `Readlink` (into a `MAX_PATH` buffer behind the
`\\?\` prefix, hence the 256-char truncation) and the target must carry the
device prefix. -/
def get (env : Env) (name : List Char) :
    Except Err (ShadowCopy × List Char) × List Eff :=
  match newGUID name with
  | some id =>
    getByDev env (scSelect ++ str " WHERE ID=" ++ goQuote (guidString id)) []
  | none =>
    let name := cleanPath name
    if hasPrefixFold name scDevRoot then
      getByDev env (scSelect ++ str " WHERE DeviceObject=" ++ goQuote (trimBackslash name)) []
    else
      match env.readlinkRes name with
      | .error e =>
        (.error (.wrap (str "vss: not a symlink: " ++ name) e), [.readlink name])
      | .ok target =>
        let dev := str "\\\\?\\" ++ target.take 256
        if ¬ hasPrefixFold dev scDevRoot then
          (.error (.lit (str "vss: not a shadow copy symlink: " ++ name)), [.readlink name])
        else
          match getByDev env
              (scSelect ++ str " WHERE DeviceObject=" ++ goQuote (trimBackslash dev)) name with
          | (r, t) => (r, .readlink name :: t)

/-- `Get` (current revision): admin gate, then `get`, dropping the symlink
component. -/
def Get (env : Env) (name : List Char) : Except Err ShadowCopy × List Eff :=
  if ¬ env.admin then (.error errNotAdmin, [])
  else
    match get env name with
    | (.error e, t) => (.error e, t)
    | (.ok (sc, _), t) => (.ok sc, t)

/-- `ShadowCopy.Remove`: admin gate, then
`CallMethod("Delete", "Win32_ShadowCopy.ID=%q")` under `wmiExec`. -/
def scRemove (env : Env) (sc : ShadowCopy) : Except Err Unit × List Eff :=
  if ¬ env.admin then (.error errNotAdmin, [])
  else
    let objPath := str "Win32_ShadowCopy.ID=" ++ goQuote sc.ID
    wmiExec env (env.deleteSC objPath, [.callDelete objPath])

/-- `Remove` (current revision): admin gate; GUID names delete directly;
otherwise `get` resolves the name, and after a successful delete a nonempty
symlink path is removed with `RemoveDirectory`. -/
def Remove (env : Env) (name : List Char) : Except Err Unit × List Eff :=
  if ¬ env.admin then (.error errNotAdmin, [])
  else
    match newGUID name with
    | some id =>
      scRemove env { ID := guidString id, InstallDate := [], DeviceObject := [], VolumeName := [] }
    | none =>
      match get env name with
      | (.error e, t) => (.error e, t)
      | (.ok (sc, symlink), t) =>
        match scRemove env sc with
        | (.error e, t2) => (.error e, t ++ t2)
        | (.ok _, t2) =>
          if symlink ≠ [] then
            match env.removeDirRes symlink with
            | .error e => (.error e, t ++ t2 ++ [.removeDirectory symlink])
            | .ok _ => (.ok (), t ++ t2 ++ [.removeDirectory symlink])
          else (.ok (), t ++ t2)

/-- The emptiness-guarded trailing-separator append shared by `create` and
`volumeName` (current revision): `if s != "" && s[len(s)-1] != '\\' { s += "\\" }`.
The index is modelled as a checked access; the emptiness guard short-circuits
before it. -/
def appendSep (s : List Char) : GoRes (List Char) :=
  if s.isEmpty then .ok s
  else
    match s.get? (s.length - 1) with
    | none => .panicked (str "index out of range")
    | some c => .ok (if c ≠ '\\' then s ++ ['\\'] else s)

/-- The always-successful value of `appendSep` (the guarded index cannot be
out of range); `appendSep_eq_ok` below ties the two. -/
def appendSepOk (s : List Char) : List Char :=
  if s.isEmpty then s
  else if s.getLast? ≠ some '\\' then s ++ ['\\'] else s

/-- `createCodeString` (zero value for codes outside the map). -/
def createCodeString (rc : Int) : List Char :=
  if rc = 0 then str "Success"
  else if rc = 1 then str "Access denied"
  else if rc = 2 then str "Invalid argument"
  else if rc = 3 then str "Specified volume not found"
  else if rc = 4 then str "Specified volume not supported"
  else if rc = 5 then str "Unsupported shadow copy context"
  else if rc = 6 then str "Insufficient storage"
  else if rc = 7 then str "Volume is in use"
  else if rc = 8 then str "Maximum number of shadow copies reached"
  else if rc = 9 then str "Another shadow copy operation is already in progress"
  else if rc = 10 then str "Shadow copy provider vetoed the operation"
  else if rc = 11 then str "Shadow copy provider not registered"
  else if rc = 12 then str "Shadow copy provider failure"
  else if rc = 13 then str "Unknown error"
  else []

/-- Decimal rendering of an `int` for `%d`. -/
def intToChars (n : Int) : List Char :=
  if n < 0 then '-' :: Nat.toDigits 10 n.natAbs else Nat.toDigits 10 n.toNat

/-- The body shared by both revisions of `create` after volume
normalization: get the `Win32_ShadowCopy` class object and call `Create`;
success needs return code 0 and a parseable GUID in the output string. -/
def createWithVol (env : Env) (vol : List Char) : Except Err GUID × List Eff :=
  match env.getClass with
  | .error e =>
    (.error (.wrap (str "vss: failed to get Win32_ShadowCopy") e),
      [.callGetClass (str "Win32_ShadowCopy")])
  | .ok _ =>
    match env.createSC vol with
    | .error e =>
      (.error (.wrap (str "vss: Win32_ShadowCopy.Create(`" ++ vol ++ str "`) failed") e),
        [.callGetClass (str "Win32_ShadowCopy"), .callCreate vol])
    | .ok (rc, id) =>
      match (if rc = 0 then newGUID id else none) with
      | some g => (.ok g, [.callGetClass (str "Win32_ShadowCopy"), .callCreate vol])
      | none =>
        (.error (.lit (str "vss: Win32_ShadowCopy.Create(`" ++ vol
            ++ str "`) returned " ++ intToChars rc
            ++ str " (" ++ createCodeString rc ++ str ")")),
          [.callGetClass (str "Win32_ShadowCopy"), .callCreate vol])

/-- `create` (current revision): normalize slashes and append the trailing
separator (`vol != ""` guard), then the shared body. -/
def create (env : Env) (vol : List Char) : Except Err GUID × List Eff :=
  createWithVol env (appendSepOk (fromSlash vol))

/-- `Create` (current revision): admin gate, `create` under `wmiExec`,
result rendered with `GUID.String`. -/
def Create (env : Env) (vol : List Char) : Except Err (List Char) × List Eff :=
  if ¬ env.admin then (.error errNotAdmin, [])
  else
    match wmiExec env (create env vol) with
    | (.error e, t) => (.error e, t)
    | (.ok g, t) => (.ok (guidString g), t)

/-- `ShadowCopy.Link`: `CreateSymbolicLink(name, DeviceObject+"\", DIRECTORY)`. -/
def scLink (env : Env) (sc : ShadowCopy) (name : List Char) : Except Err Unit × List Eff :=
  (env.symlinkRes name (sc.DeviceObject ++ ['\\']),
    [.createSymbolicLink name (sc.DeviceObject ++ ['\\'])])

/-- `CreateAt` (current revision): `Create`, then `get` on the new ID, then
`ShadowCopy.Link`; the deferred `Remove(id)` runs (its error discarded) when
either later step fails. -/
def CreateAt (env : Env) (link vol : List Char) : Except Err Unit × List Eff :=
  match Create env vol with
  | (.error e, t) => (.error e, t)
  | (.ok id, t0) =>
    match get env id with
    | (.error e, t1) => (.error e, t0 ++ t1 ++ (Remove env id).2)
    | (.ok (sc, _), t1) =>
      match scLink env sc link with
      | (.error e, t2) => (.error e, t0 ++ t1 ++ t2 ++ (Remove env id).2)
      | (.ok _, t2) => (.ok (), t0 ++ t1 ++ t2)

/-- Length of `\\?\Volume{xxxxxxxx-xxxx-xxxx-xxxx-xxxxxxxxxxxx}\`. -/
def volGUIDLen : Nat := 49

/-- `volumeName` (current revision): normalize slashes, append the trailing
separator (guarded index), and return the name unchanged when it already has
the `\\?\Volume{` prefix and the GUID-name length; otherwise ask
`GetVolumeNameForVolumeMountPoint`. -/
def volumeName (env : Env) (name : List Char) :
    GoRes (Except Err (List Char)) × List Eff :=
  match appendSep (fromSlash name) with
  | .panicked m => (.panicked m, [])
  | .ok name =>
    if name.length ≠ volGUIDLen ∨ ¬ hasPrefixFold name (str "\\\\?\\Volume\x7b") then
      match env.mountVol name with
      | .error e =>
        (.ok (.error (.wrap (str "vss: failed to get volume name of `" ++ name ++ str "`") e)),
          [.mountPointLookup name])
      | .ok out => (.ok (.ok out), [.mountPointLookup name])
    else (.ok (.ok name), [])

/-- `volumeName` with the (provably unreachable) panic outcome projected
away; used by `ListSC`. -/
def volumeNamePure (env : Env) (name : List Char) : Except Err (List Char) × List Eff :=
  let name := appendSepOk (fromSlash name)
  if name.length ≠ volGUIDLen ∨ ¬ hasPrefixFold name (str "\\\\?\\Volume\x7b") then
    match env.mountVol name with
    | .error e =>
      (.error (.wrap (str "vss: failed to get volume name of `" ++ name ++ str "`") e),
        [.mountPointLookup name])
    | .ok out => (.ok out, [.mountPointLookup name])
  else (.ok name, [])

/-- The iteration inside `List` (current revision): collect `unpack` results,
stopping at the first failure. -/
def listLoop : List WmiObj → List ShadowCopy → Except Err (List ShadowCopy)
  | [], acc => .ok acc
  | v :: rest, acc =>
    match unpack v with
    | .error e => .error e
    | .ok sc => listLoop rest (acc ++ [sc])

/-- The `execQuery` callback of `List` under `wmiExec`. -/
def listFn (env : Env) (wql : List Char) : Except Err (List ShadowCopy) × List Eff :=
  match env.query wql with
  | .error e => (.error (.wrap (str "vss: ExecQuery failed") e), [.execQuery wql])
  | .ok objs => (listLoop objs [], [.execQuery wql])

/-- `List` (current revision; named `ListSC` here because `List` is taken):
admin gate; a nonempty `vol` is converted with `volumeName` and restricts
the WQL query. -/
def ListSC (env : Env) (vol : List Char) : Except Err (List ShadowCopy) × List Eff :=
  if ¬ env.admin then (.error errNotAdmin, [])
  else if vol = [] then wmiExec env (listFn env scSelect)
  else
    match volumeNamePure env vol with
    | (.error e, t) => (.error e, t)
    | (.ok v, t) =>
      match wmiExec env (listFn env (scSelect ++ str " WHERE VolumeName=" ++ goQuote v)) with
      | (r, t2) => (r, t ++ t2)

/-! ## The earlier revision (first half of `vss.go`, wmi source with
`parseDateTime`): `LinkNew`, `Link` and `Delete` cited by the claims. -/

namespace V0

/-- `initCOM` (earlier revision): like the current one but failures are
wrapped as `vss: CoInitializeEx failed`, and teardown is the separate
`uninitCOM`. -/
def initCOM (env : Env) : Except Err Unit × List Eff :=
  match env.coInit with
  | .ok => (.ok (), [.lockThread, .coInit])
  | .oleCode c =>
    if c = 0 ∨ c = 1 then (.ok (), [.lockThread, .coInit])
    else
      (.error (.wrap (str "vss: CoInitializeEx failed") (.oleErr c)),
        [.lockThread, .coInit, .unlockThread])
  | .other e =>
    (.error (.wrap (str "vss: CoInitializeEx failed") e),
      [.lockThread, .coInit, .unlockThread])

/-- `wmiExec` (earlier revision): `initCOM`, deferred `uninitCOM`
(CoUninitialize + unlock), `connectServer`, deferred release, `fn`. -/
def wmiExec {α : Type} (env : Env) (fn : Except Err α × List Eff) :
    Except Err α × List Eff :=
  match initCOM env with
  | (.error e, t) => (.error e, t)
  | (.ok _, t0) =>
    match connectServer env with
    | (.error e, t1) => (.error e, t0 ++ t1 ++ [.coUninit, .unlockThread])
    | (.ok _, t1) =>
      (fn.1, t0 ++ t1 ++ fn.2 ++ [.releaseServices, .coUninit, .unlockThread])

/-- `parseID`: a valid GUID or the invalid-ID error. -/
def parseID (id : List Char) : Except Err GUID :=
  match newGUID id with
  | some g => .ok g
  | none => .error (.lit (str "vss: invalid ID " ++ goQuote id))

/-- `create` (earlier revision): `vol = filepath.VolumeName(vol) + "\"`,
then the shared body. -/
def create (env : Env) (vol : List Char) : Except Err GUID × List Eff :=
  createWithVol env (vol.take (volumeNameLen vol) ++ ['\\'])

/-- `Create` (earlier revision): no admin gate. -/
def Create (env : Env) (vol : List Char) : Except Err (List Char) × List Eff :=
  match wmiExec env (create env vol) with
  | (.error e, t) => (.error e, t)
  | (.ok g, t) => (.ok (guidString g), t)

/-- `deviceObjectOfID`: `queryOne` extracting the `DeviceObject` property. -/
def deviceObjectOfID (env : Env) (id : GUID) : Except Err (List Char) × List Eff :=
  queryOne env
    (str "SELECT DeviceObject FROM Win32_ShadowCopy WHERE ID=" ++ goQuote (guidString id))
    (fun v => v (str "DeviceObject"))

/-- `idOfDeviceObject`: `queryOne` extracting and parsing the `ID`
property. -/
def idOfDeviceObject (env : Env) (dev : List Char) : Except Err GUID × List Eff :=
  queryOne env
    (str "SELECT ID FROM Win32_ShadowCopy WHERE DeviceObject=" ++ goQuote dev)
    (fun v =>
      match v (str "ID") with
      | .error e => .error e
      | .ok s => parseID s)

/-- `deleteByID`: `CallMethod("Delete", "Win32_ShadowCopy.ID=%q")`. -/
def deleteByID (env : Env) (id : GUID) : Except Err Unit × List Eff :=
  let objPath := str "Win32_ShadowCopy.ID=" ++ goQuote (guidString id)
  (env.deleteSC objPath, [.callDelete objPath])

/-- `deleteByDeviceObject`: look up the ID, then `deleteByID`. -/
def deleteByDeviceObject (env : Env) (dev : List Char) : Except Err Unit × List Eff :=
  match idOfDeviceObject env dev with
  | (.error e, t) => (.error e, t)
  | (.ok id, t) =>
    match deleteByID env id with
    | (r, t2) => (r, t ++ t2)

/-- `Link` (earlier revision): parse the ID, look up its `DeviceObject`
under `wmiExec`, then `CreateSymbolicLink` to it. -/
def Link (env : Env) (link id : List Char) : Except Err Unit × List Eff :=
  match parseID id with
  | .error e => (.error e, [])
  | .ok g =>
    match wmiExec env (deviceObjectOfID env g) with
    | (.error e, t) => (.error e, t)
    | (.ok dev, t) =>
      (env.symlinkRes link (dev ++ ['\\']),
        t ++ [.createSymbolicLink link (dev ++ ['\\'])])

/-- `Delete` (earlier revision): GUID IDs delete directly; otherwise the
name must be a symlink (`Readlink` into a `MAX_PATH` buffer behind the
`\\?\` prefix) whose target, after trimming one trailing backslash, must
neither fill the buffer nor miss the (case-sensitive) device prefix; after
a successful delete the symlink directory is removed. -/
def Delete (env : Env) (idOrLink : List Char) : Except Err Unit × List Eff :=
  match parseID idOrLink with
  | .ok g => wmiExec env (deleteByID env g)
  | .error _ =>
    match env.readlinkRes idOrLink with
    | .error e =>
      (.error (.wrap (str "vss: not a valid symlink: " ++ idOrLink) e),
        [.readlink idOrLink])
    | .ok target =>
      let dev := trimBackslash (str "\\\\?\\" ++ target.take 256)
      if dev.length = 260 ∨ ¬ hasPrefix dev scDevRoot then
        (.error (.lit (str "vss: not a valid shadow copy symlink: " ++ idOrLink)),
          [.readlink idOrLink])
      else
        match wmiExec env (deleteByDeviceObject env dev) with
        | (.error e, t) => (.error e, .readlink idOrLink :: t)
        | (.ok _, t) =>
          match env.removeDirRes idOrLink with
          | .error e => (.error e, .readlink idOrLink :: (t ++ [.removeDirectory idOrLink]))
          | .ok _ => (.ok (), .readlink idOrLink :: (t ++ [.removeDirectory idOrLink]))

/-- `LinkNew` (earlier revision): `Create`, then `Link`; the deferred
`Delete(id)` runs (its error discarded) when `Link` fails. -/
def LinkNew (env : Env) (link vol : List Char) : Except Err Unit × List Eff :=
  match Create env vol with
  | (.error e, t) => (.error e, t)
  | (.ok id, t0) =>
    match Link env link id with
    | (.error e, t1) => (.error e, t0 ++ t1 ++ (Delete env id).2)
    | (.ok _, t1) => (.ok (), t0 ++ t1)
end V0

/-! ## Concrete environments used by witnesses and counterexamples -/

/-- A WMI object whose every property reads as a fixed GUID string. -/
def okObj : WmiObj := fun _ => .ok (str "{76A64158-CB41-11D1-8B02-00600806D9B6}")

/-- A benign environment: admin, COM and WMI succeed, one query result,
readlink fails (the queried paths are not symlinks). -/
def okEnv : Env where
  admin := true
  coInit := .ok
  createLocator := .ok ()
  connect := .ok ()
  query := fun _ => .ok [okObj]
  getClass := .ok ()
  createSC := fun _ => .ok (0, str "{76A64158-CB41-11D1-8B02-00600806D9B6}")
  deleteSC := fun _ => .ok ()
  readlinkRes := fun _ => .error (.lit (str "ENOENT"))
  removeDirRes := fun _ => .ok ()
  symlinkRes := fun _ _ => .ok ()
  mountVol := fun _ => .error (.lit (str "ERROR_FILE_NOT_FOUND"))

/-- `okEnv` without Administrators membership. -/
def envNoAdmin : Env := { okEnv with admin := false }

/-- `okEnv` with a two-object result set for every query. -/
def envTwo : Env := { okEnv with query := fun _ => .ok [okObj, okObj] }

/-- An extraction function that always fails. -/
def fnBoom : WmiObj → Except Err Unit := fun _ => .error (.lit (str "boom"))

/-- `okEnv` with a failing `CreateSymbolicLink`. -/
def envLinkFail : Env := { okEnv with symlinkRes := fun _ _ => .error (.lit (str "EEXIST")) }

/-- `okEnv` with an empty result set for every query (the `get` of a fresh
ID then fails with not-found). -/
def envC5 : Env := { okEnv with query := fun _ => .ok [] }

/-- Effect classifier: is this a WMI shadow-copy delete call? -/
def isCallDelete : Eff → Bool
  | .callDelete _ => true
  | _ => false

/-- Effect classifier: is this a `Readlink` call? -/
def isReadlinkEff : Eff → Bool
  | .readlink _ => true
  | _ => false

/-- The device path used by the counterexample to the Remove claim. -/
def devName1 : List Char := str "\\\\?\\GLOBALROOT\\Device\\HarddiskVolumeShadowCopy1"

/-! ## Helper lemmas -/

/-- `hexVal` only produces digit values below 16. -/
theorem hexVal_lt (c : Char) (v : Nat) (h : hexVal c = some v) : v < 16 := by
  unfold hexVal at h
  split_ifs at h with h1 h2 h3 <;> injection h with h <;> subst h
  · have ha : 48 ≤ c.toNat := h1.1
    have hb : c.toNat ≤ 57 := h1.2
    omega
  · have ha : 97 ≤ c.toNat := h2.1
    have hb : c.toNat ≤ 102 := h2.2
    omega
  · have ha : 65 ≤ c.toNat := h3.1
    have hb : c.toNat ≤ 70 := h3.2
    omega

/-- A successful `readHex` returns exactly `k` digit values below 16. -/
theorem readHex_bound : ∀ (k : Nat) (s : List Char) (vs : List Nat) (rest : List Char),
    readHex k s = some (vs, rest) → vs.length = k ∧ ∀ v ∈ vs, v < 16 := by
  intro k
  induction k with
  | zero =>
    intro s vs rest h
    unfold readHex at h
    injection h with h
    rw [Prod.mk.injEq] at h
    obtain ⟨h1, _⟩ := h
    subst h1
    exact ⟨rfl, by simp⟩
  | succ k ih =>
    intro s vs rest h
    cases s with
    | nil => simp [readHex] at h
    | cons c s =>
      unfold readHex at h
      cases hv : hexVal c with
      | none => rw [hv] at h; simp at h
      | some v =>
        rw [hv] at h
        cases hr : readHex k s with
        | none => rw [hr] at h; simp at h
        | some p =>
          obtain ⟨vs', rest'⟩ := p
          rw [hr] at h
          simp at h
          obtain ⟨h1, _⟩ := h
          subst h1
          obtain ⟨ihl, ihb⟩ := ih s vs' rest' hr
          refine ⟨by simp [ihl], ?_⟩
          intro w hw
          rcases List.mem_cons.mp hw with hw | hw
          · subst hw; exact hexVal_lt c w hv
          · exact ihb w hw

/-- Decoding the uppercase rendering of a digit value below 16 gives it
back. -/
theorem hexVal_hexChar (v : Nat) (h : v < 16) : hexVal (hexChar v) = some v := by
  interval_cases v <;> decide

/-- `readHex` inverts the rendering of a digit-value list. -/
theorem readHex_map (vs : List Nat) (rest : List Char) (h : ∀ v ∈ vs, v < 16) :
    readHex vs.length (vs.map hexChar ++ rest) = some (vs, rest) := by
  induction vs with
  | nil => rfl
  | cons v vs ih =>
    have h1 := hexVal_hexChar v (h v (by simp))
    have h2 := ih (fun w hw => h w (by simp [hw]))
    simp only [List.length_cons, List.map_cons, List.cons_append]
    unfold readHex
    rw [h1, h2]

/-- The guarded trailing-separator append never reaches its index panic. -/
theorem appendSep_eq_ok (s : List Char) : appendSep s = .ok (appendSepOk s) := by
  unfold appendSep appendSepOk
  rcases s with _ | ⟨c, rest⟩
  · rfl
  · have h : (c :: rest).get? ((c :: rest).length - 1) = (c :: rest).getLast? := by
      rw [List.get?_eq_getElem?, List.getLast?_eq_getElem?]
    rw [h]
    cases hl : (c :: rest).getLast? with
    | none => simp at hl
    | some x => by_cases hx : x = '\\' <;> simp [hx]

/-- Inversion of `decodeDashed`: a decoded GUID has 32 digit values, all
below 16. -/
theorem decodeDashed_bound (d : List Char) (g : GUID) (h : decodeDashed d = some g) :
    g.length = 32 ∧ ∀ v ∈ g, v < 16 := by
  unfold decodeDashed at h
  repeat (split at h <;> try (injection h))
  rename_i x4 a da d2 h8 x3 b db d4 h4a x2 c dc d6 h4b x1 e de d8 h4c x0 f df h12 hval
  subst hval
  obtain ⟨l8, b8⟩ := readHex_bound 8 _ _ _ h8
  obtain ⟨l4a, b4a⟩ := readHex_bound 4 _ _ _ h4a
  obtain ⟨l4b, b4b⟩ := readHex_bound 4 _ _ _ h4b
  obtain ⟨l4c, b4c⟩ := readHex_bound 4 _ _ _ h4c
  obtain ⟨l12, b12⟩ := readHex_bound 12 _ _ _ h12
  constructor
  · simp [l8, l4a, l4b, l4c, l12]
  · intro v hv
    simp only [List.mem_append] at hv
    rcases hv with (((hv | hv) | hv) | hv) | hv
    · exact b8 v hv
    · exact b4a v hv
    · exact b4b v hv
    · exact b4c v hv
    · exact b12 v hv

/-- Splitting a 32-value list at 8, 12, 16 and 20 and re-appending gives the
list back. -/
theorem seg_glue (g : GUID) (hl : g.length = 32) :
    g.take 8 ++ (g.drop 8).take 4 ++ (g.drop 12).take 4 ++ (g.drop 16).take 4
      ++ (g.drop 20).take 12 = g := by
  have e5 : (g.drop 20).take 12 = g.drop 20 := List.take_of_length_le (by simp [hl])
  have h20 : (g.drop 16).take 4 ++ (g.drop 20).take 12 = g.drop 16 := by
    rw [e5, show g.drop 20 = (g.drop 16).drop 4 by rw [List.drop_drop]]
    exact List.take_append_drop 4 (g.drop 16)
  have h16 : (g.drop 12).take 4 ++ g.drop 16 = g.drop 12 := by
    rw [show g.drop 16 = (g.drop 12).drop 4 by rw [List.drop_drop]]
    exact List.take_append_drop 4 (g.drop 12)
  have h12 : (g.drop 8).take 4 ++ g.drop 12 = g.drop 8 := by
    rw [show g.drop 12 = (g.drop 8).drop 4 by rw [List.drop_drop]]
    exact List.take_append_drop 4 (g.drop 8)
  calc g.take 8 ++ (g.drop 8).take 4 ++ (g.drop 12).take 4 ++ (g.drop 16).take 4
      ++ (g.drop 20).take 12
      = g.take 8 ++ ((g.drop 8).take 4 ++ ((g.drop 12).take 4 ++ ((g.drop 16).take 4
        ++ (g.drop 20).take 12))) := by simp [List.append_assoc]
    _ = g := by rw [h20, h16, h12, List.take_append_drop]

/-- `decodeDashed` inverts the dashed body rendering of a valid GUID. -/
theorem decodeDashed_render (g : GUID) (hl : g.length = 32) (hv : ∀ v ∈ g, v < 16) :
    decodeDashed (guidBody g) = some g := by
  have hA : ∀ v ∈ g.take 8, v < 16 := fun v hv' => hv v (List.mem_of_mem_take hv')
  have hB : ∀ v ∈ (g.drop 8).take 4, v < 16 :=
    fun v hv' => hv v (List.mem_of_mem_drop (List.mem_of_mem_take hv'))
  have hC : ∀ v ∈ (g.drop 12).take 4, v < 16 :=
    fun v hv' => hv v (List.mem_of_mem_drop (List.mem_of_mem_take hv'))
  have hD : ∀ v ∈ (g.drop 16).take 4, v < 16 :=
    fun v hv' => hv v (List.mem_of_mem_drop (List.mem_of_mem_take hv'))
  have hE : ∀ v ∈ (g.drop 20).take 12, v < 16 :=
    fun v hv' => hv v (List.mem_of_mem_drop (List.mem_of_mem_take hv'))
  have r1 := readHex_map (g.take 8)
    ('-' :: (((g.drop 8).take 4).map hexChar
      ++ '-' :: (((g.drop 12).take 4).map hexChar
      ++ '-' :: (((g.drop 16).take 4).map hexChar
      ++ '-' :: (((g.drop 20).take 12).map hexChar))))) hA
  rw [show (g.take 8).length = 8 by simp [hl]] at r1
  have r2 := readHex_map ((g.drop 8).take 4)
    ('-' :: (((g.drop 12).take 4).map hexChar
      ++ '-' :: (((g.drop 16).take 4).map hexChar
      ++ '-' :: (((g.drop 20).take 12).map hexChar)))) hB
  rw [show ((g.drop 8).take 4).length = 4 by simp [hl]] at r2
  have r3 := readHex_map ((g.drop 12).take 4)
    ('-' :: (((g.drop 16).take 4).map hexChar
      ++ '-' :: (((g.drop 20).take 12).map hexChar))) hC
  rw [show ((g.drop 12).take 4).length = 4 by simp [hl]] at r3
  have r4 := readHex_map ((g.drop 16).take 4)
    ('-' :: (((g.drop 20).take 12).map hexChar)) hD
  rw [show ((g.drop 16).take 4).length = 4 by simp [hl]] at r4
  have r5 := readHex_map ((g.drop 20).take 12) [] hE
  rw [show ((g.drop 20).take 12).length = 12 by simp [hl]] at r5
  rw [List.append_nil] at r5
  unfold guidBody decodeDashed
  simp only [List.cons_append, List.append_assoc]
  simp only [r1, r2, r3, r4, r5]
  simpa [List.append_assoc] using seg_glue g hl

/-- `newGUID` inverts `GUID.String` on canonical renderings of valid
GUIDs. -/
theorem newGUID_guidString (g : GUID) (hl : g.length = 32) (hv : ∀ v ∈ g, v < 16) :
    newGUID (guidString g) = some g := by
  have hbl : (guidBody g).length = 36 := by
    simp [guidBody, hl]
  have hsl : (guidString g).length = 38 := by
    simp [guidString, hbl]
  unfold newGUID
  rw [if_pos hsl]
  show (if (guidBody g ++ ['}']).getLast? = some '}' then
      decodeDashed (guidBody g ++ ['}']).dropLast else none) = some g
  rw [List.getLast?_concat, if_pos rfl, List.dropLast_concat]
  exact decodeDashed_render g hl hv

/-- Inversion of `newGUID`: any parsed GUID has 32 digit values below 16. -/
theorem newGUID_bound (s : List Char) (g : GUID) (h : newGUID s = some g) :
    g.length = 32 ∧ ∀ v ∈ g, v < 16 := by
  unfold newGUID at h
  split_ifs at h with h38 h36 h32
  · split at h
    · split_ifs at h with hlast
      exact decodeDashed_bound _ _ h
    · simp at h
  · exact decodeDashed_bound _ _ h
  · split at h
    · rename_i vs heq
      injection h with h
      subst h
      have := readHex_bound 32 _ _ _ heq
      exact ⟨this.1, this.2⟩
    · simp at h

/-- Re-parsing the canonical rendering of any successfully parsed GUID gives
the same GUID. -/
theorem newGUID_roundtrip (s : List Char) (g : GUID) (h : newGUID s = some g) :
    newGUID (guidString g) = some g :=
  newGUID_guidString g (newGUID_bound s g h).1 (newGUID_bound s g h).2

/-- Any `Except _ Unit` is the canonical success or some error. -/
theorem except_unit_cases (r : Except Err Unit) : r = .ok () ∨ ∃ e, r = .error e := by
  cases r with
  | ok u => exact Or.inl rfl
  | error e => exact Or.inr ⟨e, rfl⟩

/-- When `initCOM` (current revision) succeeds its trace is exactly the
thread lock and the `CoInitializeEx` call. -/
theorem initCOM_ok_eq (env : Env) (h : (initCOM env).1 = .ok ()) :
    initCOM env = (.ok (), [.lockThread, .coInit]) := by
  cases hco : env.coInit with
  | ok => simp [initCOM, hco]
  | oleCode c =>
    by_cases hc : c = 0 ∨ c = 1
    · simp [initCOM, hco, hc]
    · simp [initCOM, hco, hc] at h
  | other e => simp [initCOM, hco] at h

/-- When `initCOM` (current revision) fails, the deferred unlock has run. -/
theorem initCOM_err_eq (env : Env) (e : Err) (h : (initCOM env).1 = .error e) :
    initCOM env = (.error e, [.lockThread, .coInit, .unlockThread]) := by
  cases hco : env.coInit with
  | ok => simp [initCOM, hco] at h
  | oleCode c =>
    by_cases hc : c = 0 ∨ c = 1
    · simp [initCOM, hco, hc] at h
    · simp [initCOM, hco, hc] at h ⊢; exact h
  | other e2 => simp [initCOM, hco] at h ⊢; exact h

/-- When `connectServer` succeeds its trace is the locator creation and the
`ConnectServer` call. -/
theorem connectServer_ok_eq (env : Env) (h : (connectServer env).1 = .ok ()) :
    connectServer env =
      (.ok (), [.createInstance clsidSWbemLocator iidISWbemLocator,
                .connectServer nsCIMV2]) := by
  cases hA : env.createLocator with
  | error e => simp [connectServer, hA] at h
  | ok u =>
    cases hB : env.connect with
    | error e => simp [connectServer, hA, hB] at h
    | ok u2 => simp [connectServer, hA, hB]

/-- `wmiExec` (current revision) when both `initCOM` and `connectServer`
succeed. -/
theorem wmiExec_ok_eq {α : Type} (env : Env) (fn : Except Err α × List Eff)
    (h1 : (initCOM env).1 = .ok ()) (h2 : (connectServer env).1 = .ok ()) :
    wmiExec env fn =
      (fn.1, [.lockThread, .coInit,
          .createInstance clsidSWbemLocator iidISWbemLocator, .connectServer nsCIMV2]
        ++ fn.2 ++ [.releaseServices, .coUninit, .unlockThread]) := by
  unfold wmiExec
  rw [initCOM_ok_eq env h1, connectServer_ok_eq env h2]
  rfl

/-- `wmiExec` (current revision) when `initCOM` fails. -/
theorem wmiExec_init_err {α : Type} (env : Env) (fn : Except Err α × List Eff)
    (e : Err) (h : (initCOM env).1 = .error e) :
    wmiExec env fn = (.error e, [.lockThread, .coInit, .unlockThread]) := by
  unfold wmiExec
  rw [initCOM_err_eq env e h]

/-- `wmiExec` (current revision) when `initCOM` succeeds and
`connectServer` fails: the error propagates and teardown runs. -/
theorem wmiExec_conn_err {α : Type} (env : Env) (fn : Except Err α × List Eff)
    (e : Err) (h1 : (initCOM env).1 = .ok ()) (h2 : (connectServer env).1 = .error e) :
    wmiExec env fn =
      (.error e, [.lockThread, .coInit] ++ (connectServer env).2
        ++ [.coUninit, .unlockThread]) := by
  unfold wmiExec
  rw [initCOM_ok_eq env h1]
  rcases hc : connectServer env with ⟨r1, t1⟩
  rw [hc] at h2
  simp at h2
  subst h2
  rfl

/-- A successful `wmiExec` (current revision) implies COM initialization,
the server connection and the callback all succeeded. -/
theorem wmiExec_ok_inv {α : Type} (env : Env) (fn : Except Err α × List Eff)
    (x : α) (t : List Eff) (h : wmiExec env fn = (.ok x, t)) :
    (initCOM env).1 = .ok () ∧ (connectServer env).1 = .ok () ∧ fn.1 = .ok x := by
  rcases except_unit_cases (initCOM env).1 with h1 | ⟨e, h1⟩
  · rcases except_unit_cases (connectServer env).1 with h2 | ⟨e, h2⟩
    · rw [wmiExec_ok_eq env fn h1 h2] at h
      refine ⟨h1, h2, ?_⟩
      have := congrArg Prod.fst h
      simpa using this
    · rw [wmiExec_conn_err env fn e h1 h2] at h
      have := congrArg Prod.fst h
      simp at this
  · rw [wmiExec_init_err env fn e h1] at h
    have := congrArg Prod.fst h
    simp at this

/-- `V0.initCOM` succeeds exactly like the current `initCOM`. -/
theorem v0_initCOM_ok_eq (env : Env) (h : (V0.initCOM env).1 = .ok ()) :
    V0.initCOM env = (.ok (), [.lockThread, .coInit]) := by
  cases hco : env.coInit with
  | ok => simp [V0.initCOM, hco]
  | oleCode c =>
    by_cases hc : c = 0 ∨ c = 1
    · simp [V0.initCOM, hco, hc]
    · simp [V0.initCOM, hco, hc] at h
  | other e => simp [V0.initCOM, hco] at h

/-- `V0.wmiExec` when `initCOM` and `connectServer` succeed. -/
theorem v0_wmiExec_ok_eq {α : Type} (env : Env) (fn : Except Err α × List Eff)
    (h1 : (V0.initCOM env).1 = .ok ()) (h2 : (connectServer env).1 = .ok ()) :
    V0.wmiExec env fn =
      (fn.1, [.lockThread, .coInit,
          .createInstance clsidSWbemLocator iidISWbemLocator, .connectServer nsCIMV2]
        ++ fn.2 ++ [.releaseServices, .coUninit, .unlockThread]) := by
  unfold V0.wmiExec
  rw [v0_initCOM_ok_eq env h1, connectServer_ok_eq env h2]
  rfl

/-- `V0.initCOM` failure shape. -/
theorem v0_initCOM_err_eq (env : Env) (e : Err) (h : (V0.initCOM env).1 = .error e) :
    V0.initCOM env = (.error e, [.lockThread, .coInit, .unlockThread]) := by
  cases hco : env.coInit with
  | ok => simp [V0.initCOM, hco] at h
  | oleCode c =>
    by_cases hc : c = 0 ∨ c = 1
    · simp [V0.initCOM, hco, hc] at h
    · simp [V0.initCOM, hco, hc] at h ⊢; exact h
  | other e2 => simp [V0.initCOM, hco] at h ⊢; exact h

/-- `V0.wmiExec` when `initCOM` fails. -/
theorem v0_wmiExec_init_err {α : Type} (env : Env) (fn : Except Err α × List Eff)
    (e : Err) (h : (V0.initCOM env).1 = .error e) :
    V0.wmiExec env fn = (.error e, [.lockThread, .coInit, .unlockThread]) := by
  unfold V0.wmiExec
  rw [v0_initCOM_err_eq env e h]

/-- `V0.wmiExec` when `connectServer` fails. -/
theorem v0_wmiExec_conn_err {α : Type} (env : Env) (fn : Except Err α × List Eff)
    (e : Err) (h1 : (V0.initCOM env).1 = .ok ()) (h2 : (connectServer env).1 = .error e) :
    V0.wmiExec env fn =
      (.error e, [.lockThread, .coInit] ++ (connectServer env).2
        ++ [.coUninit, .unlockThread]) := by
  unfold V0.wmiExec
  rw [v0_initCOM_ok_eq env h1]
  rcases hc : connectServer env with ⟨r1, t1⟩
  rw [hc] at h2
  simp at h2
  subst h2
  rfl

/-- A successful `V0.wmiExec` implies the stages all succeeded. -/
theorem v0_wmiExec_ok_inv {α : Type} (env : Env) (fn : Except Err α × List Eff)
    (x : α) (t : List Eff) (h : V0.wmiExec env fn = (.ok x, t)) :
    (V0.initCOM env).1 = .ok () ∧ (connectServer env).1 = .ok () ∧ fn.1 = .ok x := by
  rcases except_unit_cases (V0.initCOM env).1 with h1 | ⟨e, h1⟩
  · rcases except_unit_cases (connectServer env).1 with h2 | ⟨e, h2⟩
    · rw [v0_wmiExec_ok_eq env fn h1 h2] at h
      refine ⟨h1, h2, ?_⟩
      have := congrArg Prod.fst h
      simpa using this
    · rw [v0_wmiExec_conn_err env fn e h1 h2] at h
      have := congrArg Prod.fst h
      simp at this
  · rw [v0_wmiExec_init_err env fn e h1] at h
    have := congrArg Prod.fst h
    simp at this

/-- A successful `createWithVol` parsed its GUID from the WMI output
string. -/
theorem createWithVol_ok_guid (env : Env) (vol : List Char) (g : GUID)
    (h : (createWithVol env vol).1 = .ok g) : ∃ raw, newGUID raw = some g := by
  cases hg : env.getClass with
  | error e => simp [createWithVol, hg] at h
  | ok u =>
    cases hc : env.createSC vol with
    | error e => simp [createWithVol, hg, hc] at h
    | ok p =>
      obtain ⟨rc, idStr⟩ := p
      by_cases hrc : rc = 0
      · cases hng : newGUID idStr with
        | none => simp [createWithVol, hg, hc, hrc, hng] at h
        | some g2 =>
          have : g2 = g := by simpa [createWithVol, hg, hc, hrc, hng] using h
          exact ⟨idStr, this ▸ hng⟩
      · simp [createWithVol, hg, hc, hrc] at h

/-- Inversion of a successful `Create` (current revision): the process is
admin, COM and the connection succeeded, and the returned ID is the
canonical rendering of a parseable GUID. -/
theorem Create_ok_inv (env : Env) (vol id : List Char) (t0 : List Eff)
    (h : Create env vol = (.ok id, t0)) :
    env.admin = true ∧ (initCOM env).1 = .ok () ∧ (connectServer env).1 = .ok () ∧
      ∃ g, id = guidString g ∧ newGUID id = some g := by
  by_cases ha : env.admin
  · unfold Create at h
    rw [if_neg (by simp [ha])] at h
    rcases hw : wmiExec env (create env vol) with ⟨r, t⟩
    rw [hw] at h
    cases r with
    | error e => simp at h
    | ok g =>
      simp at h
      obtain ⟨hid, -⟩ := h
      obtain ⟨h1, h2, h3⟩ := wmiExec_ok_inv env _ g t hw
      obtain ⟨raw, hraw⟩ := createWithVol_ok_guid env _ g (by
        have : (create env vol).1 = .ok g := h3
        simpa [create] using this)
      have hrt : newGUID (guidString g) = some g := newGUID_roundtrip raw g hraw
      exact ⟨ha, h1, h2, g, hid.symm, hid ▸ hrt⟩
  · unfold Create at h
    rw [if_pos (by simp [ha])] at h
    simp at h

/-- `Remove` (current revision) on a GUID name with working COM: the WMI
delete call is issued for that shadow copy. -/
theorem Remove_guid_eq (env : Env) (nm : List Char) (g : GUID)
    (ha : env.admin = true) (h1 : (initCOM env).1 = .ok ())
    (h2 : (connectServer env).1 = .ok ()) (hg : newGUID nm = some g) :
    Remove env nm =
      (env.deleteSC (str "Win32_ShadowCopy.ID=" ++ goQuote (guidString g)),
       [.lockThread, .coInit, .createInstance clsidSWbemLocator iidISWbemLocator,
        .connectServer nsCIMV2,
        .callDelete (str "Win32_ShadowCopy.ID=" ++ goQuote (guidString g)),
        .releaseServices, .coUninit, .unlockThread]) := by
  unfold Remove
  rw [if_neg (by simp [ha]), hg]
  show scRemove env
      { ID := guidString g, InstallDate := [], DeviceObject := [], VolumeName := [] } = _
  unfold scRemove
  rw [if_neg (by simp [ha])]
  rw [wmiExec_ok_eq env _ h1 h2]
  simp

/-- `V0.Delete` on a GUID name with working COM issues the WMI delete. -/
theorem v0_Delete_guid_eq (env : Env) (nm : List Char) (g : GUID)
    (h1 : (V0.initCOM env).1 = .ok ()) (h2 : (connectServer env).1 = .ok ())
    (hg : newGUID nm = some g) :
    V0.Delete env nm =
      (env.deleteSC (str "Win32_ShadowCopy.ID=" ++ goQuote (guidString g)),
       [.lockThread, .coInit, .createInstance clsidSWbemLocator iidISWbemLocator,
        .connectServer nsCIMV2,
        .callDelete (str "Win32_ShadowCopy.ID=" ++ goQuote (guidString g)),
        .releaseServices, .coUninit, .unlockThread]) := by
  unfold V0.Delete V0.parseID
  rw [hg]
  show V0.wmiExec env (V0.deleteByID env g) = _
  rw [v0_wmiExec_ok_eq env _ h1 h2]
  simp [V0.deleteByID]

/-- Inversion of a successful `V0.Create`. -/
theorem v0_Create_ok_inv (env : Env) (vol id : List Char) (t0 : List Eff)
    (h : V0.Create env vol = (.ok id, t0)) :
    (V0.initCOM env).1 = .ok () ∧ (connectServer env).1 = .ok () ∧
      ∃ g, id = guidString g ∧ newGUID id = some g := by
  unfold V0.Create at h
  rcases hw : V0.wmiExec env (V0.create env vol) with ⟨r, t⟩
  rw [hw] at h
  cases r with
  | error e => simp at h
  | ok g =>
    simp at h
    obtain ⟨hid, -⟩ := h
    obtain ⟨h1, h2, h3⟩ := v0_wmiExec_ok_inv env _ g t hw
    obtain ⟨raw, hraw⟩ := createWithVol_ok_guid env _ g (by
      have : (V0.create env vol).1 = .ok g := h3
      simpa [V0.create] using this)
    have hrt : newGUID (guidString g) = some g := newGUID_roundtrip raw g hraw
    exact ⟨h1, h2, g, hid.symm, hid ▸ hrt⟩

/-! ## Claim C1 -/

/-- C1: while the process is not a member of the local Administrators group,
`Create`, `Get`, `List` and `Remove` each return `errNotAdmin`, which wraps
`os.ErrPermission`, and perform no WMI query and no COM call (their effect
trace is empty). -/
theorem claim_admin_gate (env : Env) (cv gn lv rn : List Char)
    (h : env.admin = false) :
    Create env cv = (.error errNotAdmin, []) ∧
    Get env gn = (.error errNotAdmin, []) ∧
    ListSC env lv = (.error errNotAdmin, []) ∧
    Remove env rn = (.error errNotAdmin, []) ∧
    errIs errNotAdmin Err.permission = true := by
  refine ⟨?_, ?_, ?_, ?_, by decide⟩ <;> simp [Create, Get, ListSC, Remove, h]

/-- Witness: the admin gate at a concrete non-admin environment. -/
theorem claim_admin_gate_witness :
    Create envNoAdmin (str "C:") = (.error errNotAdmin, []) ∧
    Get envNoAdmin (str "C:\\snap") = (.error errNotAdmin, []) ∧
    ListSC envNoAdmin [] = (.error errNotAdmin, []) ∧
    Remove envNoAdmin (str "C:\\snap") = (.error errNotAdmin, []) ∧
    errIs errNotAdmin Err.permission = true :=
  claim_admin_gate envNoAdmin (str "C:") (str "C:\\snap") [] (str "C:\\snap") rfl

/-! ## Claim C2 -/

/-- C2: whenever COM initialization succeeds in `wmiExec`, `CoUninitialize`
and the OS-thread unlock execute before `wmiExec` returns on every path
(connection failure, callback failure, callback success): the trace always
ends with them.  For a callback without COM-lifecycle effects of its own the
trace holds exactly one `CoInitializeEx` and one `CoUninitialize` and
equally many thread locks and unlocks, so the calling thread is never left
with the apartment initialized. -/
theorem claim_wmiExec_teardown {α : Type} (env : Env) (fn : Except Err α × List Eff)
    (hinit : (initCOM env).1 = .ok ())
    (hfn : Eff.coUninit ∉ fn.2 ∧ Eff.coInit ∉ fn.2 ∧
      Eff.lockThread ∉ fn.2 ∧ Eff.unlockThread ∉ fn.2) :
    (∃ t, (wmiExec env fn).2 = t ++ [Eff.coUninit, Eff.unlockThread]) ∧
    (wmiExec env fn).2.count Eff.coUninit = 1 ∧
    (wmiExec env fn).2.count Eff.coInit = 1 ∧
    (wmiExec env fn).2.count Eff.lockThread = (wmiExec env fn).2.count Eff.unlockThread := by
  obtain ⟨hc1, hc2, hc3, hc4⟩ := hfn
  have hz1 := List.count_eq_zero.mpr hc1
  have hz2 := List.count_eq_zero.mpr hc2
  have hz3 := List.count_eq_zero.mpr hc3
  have hz4 := List.count_eq_zero.mpr hc4
  rcases except_unit_cases (connectServer env).1 with h2 | ⟨e, h2⟩
  · rw [wmiExec_ok_eq env fn hinit h2]
    refine ⟨⟨[.lockThread, .coInit,
        .createInstance clsidSWbemLocator iidISWbemLocator,
        .connectServer nsCIMV2] ++ fn.2 ++ [.releaseServices], by simp⟩, ?_, ?_, ?_⟩ <;>
      simp [List.count_append, hz1, hz2, hz3, hz4]
  · rw [wmiExec_conn_err env fn e hinit h2]
    have hsmall :
        (connectServer env).2 = [Eff.createInstance clsidSWbemLocator iidISWbemLocator] ∨
        (connectServer env).2 = [Eff.createInstance clsidSWbemLocator iidISWbemLocator,
          Eff.connectServer nsCIMV2] := by
      cases hA : env.createLocator with
      | error e2 => exact Or.inl (by simp [connectServer, hA])
      | ok u =>
        cases hB : env.connect with
        | error e2 => exact Or.inr (by simp [connectServer, hA, hB])
        | ok u2 => simp [connectServer, hA, hB] at h2
    rcases hsmall with hs | hs
    · rw [hs]
      exact ⟨⟨[Eff.lockThread, Eff.coInit,
          Eff.createInstance clsidSWbemLocator iidISWbemLocator], by simp⟩,
        by simp [List.count_append], by simp [List.count_append],
        by simp [List.count_append]⟩
    · rw [hs]
      exact ⟨⟨[Eff.lockThread, Eff.coInit,
          Eff.createInstance clsidSWbemLocator iidISWbemLocator,
          Eff.connectServer nsCIMV2], by simp⟩,
        by simp [List.count_append], by simp [List.count_append],
        by simp [List.count_append]⟩

/-- Witness: teardown at a concrete environment and callback. -/
theorem claim_wmiExec_teardown_witness :
    (∃ t, (wmiExec okEnv ((Except.ok () : Except Err Unit),
        [Eff.execQuery (str "q")])).2 = t ++ [Eff.coUninit, Eff.unlockThread]) ∧
    (wmiExec okEnv ((Except.ok () : Except Err Unit),
        [Eff.execQuery (str "q")])).2.count Eff.coUninit = 1 ∧
    (wmiExec okEnv ((Except.ok () : Except Err Unit),
        [Eff.execQuery (str "q")])).2.count Eff.coInit = 1 ∧
    (wmiExec okEnv ((Except.ok () : Except Err Unit),
        [Eff.execQuery (str "q")])).2.count Eff.lockThread =
      (wmiExec okEnv ((Except.ok () : Except Err Unit),
        [Eff.execQuery (str "q")])).2.count Eff.unlockThread :=
  claim_wmiExec_teardown okEnv _ rfl (by refine ⟨?_, ?_, ?_, ?_⟩ <;> decide)

/-! ## Claim C8 -/

/-- C8: the Administrators-group test is evaluated at most once: any call
made with the cell state left by an earlier call returns that call's value,
leaves the cell unchanged, and performs no effects — in particular it does
not re-run the SID allocation or the token membership check. -/
theorem claim_isAdmin_once (env : AdminEnv) (c c' : Option Bool) (v : Bool)
    (t : List Eff) (h : isAdmin env c = (v, c', t)) :
    isAdmin env c' = (v, c', []) := by
  cases c with
  | some w =>
    have hv : v = w ∧ c' = some w := by
      have h1 := congrArg (fun p => p.1) h
      have h2 := congrArg (fun p => p.2.1) h
      simp [isAdmin] at h1 h2
      exact ⟨h1.symm, h2.symm⟩
    obtain ⟨hv1, hv2⟩ := hv
    subst hv1; subst hv2
    rfl
  | none =>
    have hv : v = (isAdminOnceBody env).1 ∧ c' = some (isAdminOnceBody env).1 := by
      have h1 := congrArg (fun p => p.1) h
      have h2 := congrArg (fun p => p.2.1) h
      simp [isAdmin] at h1 h2
      exact ⟨h1.symm, h2.symm⟩
    obtain ⟨hv1, hv2⟩ := hv
    subst hv1; subst hv2
    rfl

/-- A concrete `AdminEnv` whose SID allocation fails. -/
def adminEnvW : AdminEnv where
  allocSid := .error (.lit (str "E_OUTOFMEMORY"))
  isMember := (false, none)

/-- Witness: a second `isAdmin` call after a first one returns the cached
value with no effects. -/
theorem claim_isAdmin_once_witness :
    isAdmin adminEnvW (some false) = (false, some false, []) :=
  claim_isAdmin_once adminEnvW none (some false) false [Eff.allocSid] rfl

/-! ## Claim C10 -/

/-- C5: when `CreateAt` (current revision) has created a shadow copy and a
later step fails — the `get` lookup of the new ID, or the symbolic link —
the deferred `Remove(id)` issues the WMI delete for the new shadow copy
before `CreateAt` returns, and the returned error is the failing step's
error.  Likewise for `LinkNew` (earlier revision) with `Link` and the
deferred `Delete(id)`. -/
theorem claim_createAt_cleanup (env : Env) (link vol : List Char) :
    (∀ id t0 e t1, Create env vol = (.ok id, t0) → get env id = (.error e, t1) →
      (CreateAt env link vol).1 = .error e ∧
      Eff.callDelete (str "Win32_ShadowCopy.ID=" ++ goQuote id) ∈ (CreateAt env link vol).2) ∧
    (∀ id t0 sc sl t1 e, Create env vol = (.ok id, t0) → get env id = (.ok (sc, sl), t1) →
      env.symlinkRes link (sc.DeviceObject ++ ['\\']) = .error e →
      (CreateAt env link vol).1 = .error e ∧
      Eff.callDelete (str "Win32_ShadowCopy.ID=" ++ goQuote id) ∈ (CreateAt env link vol).2) ∧
    (∀ id t0 e t1, V0.Create env vol = (.ok id, t0) → V0.Link env link id = (.error e, t1) →
      (V0.LinkNew env link vol).1 = .error e ∧
      Eff.callDelete (str "Win32_ShadowCopy.ID=" ++ goQuote id) ∈ (V0.LinkNew env link vol).2) := by
  refine ⟨?_, ?_, ?_⟩
  · intro id t0 e t1 hc hget
    obtain ⟨ha, h1, h2, g, hid, hng⟩ := Create_ok_inv env vol id t0 hc
    have hrem := Remove_guid_eq env id g ha h1 h2 hng
    unfold CreateAt
    simp only [hc, hget]
    constructor
    · trivial
    · rw [hrem, hid]
      simp
  · intro id t0 sc sl t1 e hc hget hlink
    obtain ⟨ha, h1, h2, g, hid, hng⟩ := Create_ok_inv env vol id t0 hc
    have hrem := Remove_guid_eq env id g ha h1 h2 hng
    have hsl : scLink env sc link =
        (.error e, [.createSymbolicLink link (sc.DeviceObject ++ ['\\'])]) := by
      unfold scLink
      rw [hlink]
    unfold CreateAt
    simp only [hc, hget, hsl]
    constructor
    · trivial
    · rw [hrem, hid]
      simp
  · intro id t0 e t1 hc hlink
    obtain ⟨h1, h2, g, hid, hng⟩ := v0_Create_ok_inv env vol id t0 hc
    have hdel := v0_Delete_guid_eq env id g h1 h2 hng
    unfold V0.LinkNew
    simp only [hc, hlink]
    constructor
    · trivial
    · rw [hdel, hid]
      simp

/-- Witness: `CreateAt` in an environment where creation succeeds and the
lookup of the new ID finds nothing: the not-found error propagates and the
WMI delete for the new shadow copy was issued. -/
theorem claim_createAt_cleanup_witness :
    (CreateAt envC5 (str "C:\\link") (str "C:")).1 =
      .error (.lit (str "vss: not found: "
        ++ (scSelect ++ str " WHERE ID="
          ++ goQuote (str "{76A64158-CB41-11D1-8B02-00600806D9B6}")))) ∧
    Eff.callDelete (str "Win32_ShadowCopy.ID="
        ++ goQuote (str "{76A64158-CB41-11D1-8B02-00600806D9B6}"))
      ∈ (CreateAt envC5 (str "C:\\link") (str "C:")).2 :=
  (claim_createAt_cleanup envC5 (str "C:\\link") (str "C:")).1
    (str "{76A64158-CB41-11D1-8B02-00600806D9B6}")
    (Create envC5 (str "C:")).2
    (.lit (str "vss: not found: " ++ (scSelect ++ str " WHERE ID="
      ++ goQuote (str "{76A64158-CB41-11D1-8B02-00600806D9B6}"))))
    (get envC5 (str "{76A64158-CB41-11D1-8B02-00600806D9B6}")).2
    rfl rfl


/-! ## Claim C9 -/

/-- The four possible effect traces of `wmiExec` (current revision). -/
theorem wmiExec_trace_cases {α : Type} (env : Env) (fn : Except Err α × List Eff) :
    (wmiExec env fn).2 = [.lockThread, .coInit, .unlockThread] ∨
    (wmiExec env fn).2 = [.lockThread, .coInit,
        .createInstance clsidSWbemLocator iidISWbemLocator, .coUninit, .unlockThread] ∨
    (wmiExec env fn).2 = [.lockThread, .coInit,
        .createInstance clsidSWbemLocator iidISWbemLocator, .connectServer nsCIMV2,
        .coUninit, .unlockThread] ∨
    (wmiExec env fn).2 = [.lockThread, .coInit,
        .createInstance clsidSWbemLocator iidISWbemLocator, .connectServer nsCIMV2]
      ++ fn.2 ++ [.releaseServices, .coUninit, .unlockThread] := by
  rcases except_unit_cases (initCOM env).1 with h1 | ⟨e, h1⟩
  · rcases except_unit_cases (connectServer env).1 with h2 | ⟨e, h2⟩
    · right; right; right
      rw [wmiExec_ok_eq env fn h1 h2]
    · rw [wmiExec_conn_err env fn e h1 h2]
      cases hA : env.createLocator with
      | error e2 =>
        right; left
        simp [connectServer, hA]
      | ok u =>
        cases hB : env.connect with
        | error e2 =>
          right; right; left
          simp [connectServer, hA, hB]
        | ok u2 => simp [connectServer, hA, hB] at h2
  · left
    rw [wmiExec_init_err env fn e h1]

/-- The four possible effect traces of `V0.wmiExec`. -/
theorem v0_wmiExec_trace_cases {α : Type} (env : Env) (fn : Except Err α × List Eff) :
    (V0.wmiExec env fn).2 = [.lockThread, .coInit, .unlockThread] ∨
    (V0.wmiExec env fn).2 = [.lockThread, .coInit,
        .createInstance clsidSWbemLocator iidISWbemLocator, .coUninit, .unlockThread] ∨
    (V0.wmiExec env fn).2 = [.lockThread, .coInit,
        .createInstance clsidSWbemLocator iidISWbemLocator, .connectServer nsCIMV2,
        .coUninit, .unlockThread] ∨
    (V0.wmiExec env fn).2 = [.lockThread, .coInit,
        .createInstance clsidSWbemLocator iidISWbemLocator, .connectServer nsCIMV2]
      ++ fn.2 ++ [.releaseServices, .coUninit, .unlockThread] := by
  rcases except_unit_cases (V0.initCOM env).1 with h1 | ⟨e, h1⟩
  · rcases except_unit_cases (connectServer env).1 with h2 | ⟨e, h2⟩
    · right; right; right
      rw [v0_wmiExec_ok_eq env fn h1 h2]
    · rw [v0_wmiExec_conn_err env fn e h1 h2]
      cases hA : env.createLocator with
      | error e2 =>
        right; left
        simp [connectServer, hA]
      | ok u =>
        cases hB : env.connect with
        | error e2 =>
          right; right; left
          simp [connectServer, hA, hB]
        | ok u2 => simp [connectServer, hA, hB] at h2
  · left
    rw [v0_wmiExec_init_err env fn e h1]

/-- C9: in both revisions the only locator ever created is `SWbemLocator`
with the fixed CLSID and IID, the only namespace ever passed to
`ConnectServer` is `root\CIMV2`, and whenever the callback runs (COM and
connection succeeded) its effects are preceded by exactly that locator
creation and connection.  All WMI operations of the package run their WMI
work through `wmiExec`, so this covers every operation. -/
theorem claim_wmi_locator {α β : Type} (env : Env)
    (fn : Except Err α × List Eff) (fn0 : Except Err β × List Eff)
    (hf1 : ∀ c i, Eff.createInstance c i ∉ fn.2)
    (hf2 : ∀ ns, Eff.connectServer ns ∉ fn.2)
    (hg1 : ∀ c i, Eff.createInstance c i ∉ fn0.2)
    (hg2 : ∀ ns, Eff.connectServer ns ∉ fn0.2) :
    (∀ c i, Eff.createInstance c i ∈ (wmiExec env fn).2 →
      c = clsidSWbemLocator ∧ i = iidISWbemLocator) ∧
    (∀ ns, Eff.connectServer ns ∈ (wmiExec env fn).2 → ns = nsCIMV2) ∧
    ((initCOM env).1 = .ok () → (connectServer env).1 = .ok () →
      ∃ pre post, (wmiExec env fn).2 = pre ++ fn.2 ++ post ∧
        Eff.createInstance clsidSWbemLocator iidISWbemLocator ∈ pre ∧
        Eff.connectServer nsCIMV2 ∈ pre) ∧
    (∀ c i, Eff.createInstance c i ∈ (V0.wmiExec env fn0).2 →
      c = clsidSWbemLocator ∧ i = iidISWbemLocator) ∧
    (∀ ns, Eff.connectServer ns ∈ (V0.wmiExec env fn0).2 → ns = nsCIMV2) ∧
    ((V0.initCOM env).1 = .ok () → (connectServer env).1 = .ok () →
      ∃ pre post, (V0.wmiExec env fn0).2 = pre ++ fn0.2 ++ post ∧
        Eff.createInstance clsidSWbemLocator iidISWbemLocator ∈ pre ∧
        Eff.connectServer nsCIMV2 ∈ pre) := by
  refine ⟨?_, ?_, ?_, ?_, ?_, ?_⟩
  · intro c i hm
    rcases wmiExec_trace_cases env fn with h | h | h | h <;> rw [h] at hm <;> simp at hm
    · exact hm
    · exact hm
    · rcases hm with hm | hm
      · exact hm
      · exact absurd hm (hf1 c i)
  · intro ns hm
    rcases wmiExec_trace_cases env fn with h | h | h | h <;> rw [h] at hm <;> simp at hm
    · exact hm
    · rcases hm with hm | hm
      · exact hm
      · exact absurd hm (hf2 ns)
  · intro h1 h2
    rw [wmiExec_ok_eq env fn h1 h2]
    exact ⟨[.lockThread, .coInit,
        .createInstance clsidSWbemLocator iidISWbemLocator, .connectServer nsCIMV2],
      [.releaseServices, .coUninit, .unlockThread], rfl, by simp, by simp⟩
  · intro c i hm
    rcases v0_wmiExec_trace_cases env fn0 with h | h | h | h <;> rw [h] at hm <;> simp at hm
    · exact hm
    · exact hm
    · rcases hm with hm | hm
      · exact hm
      · exact absurd hm (hg1 c i)
  · intro ns hm
    rcases v0_wmiExec_trace_cases env fn0 with h | h | h | h <;> rw [h] at hm <;> simp at hm
    · exact hm
    · rcases hm with hm | hm
      · exact hm
      · exact absurd hm (hg2 ns)
  · intro h1 h2
    rw [v0_wmiExec_ok_eq env fn0 h1 h2]
    exact ⟨[.lockThread, .coInit,
        .createInstance clsidSWbemLocator iidISWbemLocator, .connectServer nsCIMV2],
      [.releaseServices, .coUninit, .unlockThread], rfl, by simp, by simp⟩

/-- Witness: the locator and namespace facts at a concrete environment and
query callback. -/
theorem claim_wmi_locator_witness :
    ∃ pre post,
      (wmiExec okEnv ((Except.ok () : Except Err Unit), [Eff.execQuery (str "q")])).2
          = pre ++ [Eff.execQuery (str "q")] ++ post ∧
        Eff.createInstance clsidSWbemLocator iidISWbemLocator ∈ pre ∧
        Eff.connectServer nsCIMV2 ∈ pre :=
  ((claim_wmi_locator okEnv ((Except.ok () : Except Err Unit), [Eff.execQuery (str "q")])
      ((Except.ok () : Except Err Unit), [Eff.execQuery (str "q")])
      (by intro c i h; simp at h) (by intro ns h; simp at h)
      (by intro c i h; simp at h) (by intro ns h; simp at h)).2.2.1) rfl rfl

/-! ## Claim C4 -/

/-- C4 counterexample: a result set with two objects where the extraction
function fails on the first object.  `queryOne` returns the extraction
error, not the multiple-matches error the claim requires for every
result set of two or more objects. -/
theorem claim_queryOne_cex :
    (envTwo.query (str "q")).map List.length = .ok 2 ∧
    (queryOne envTwo (str "q") fnBoom).1 = .error (.lit (str "boom")) ∧
    (queryOne envTwo (str "q") fnBoom).1 ≠
      .error (.lit (str "vss: multiple matches: q")) := by
  refine ⟨rfl, rfl, ?_⟩
  intro hc
  have hb : (queryOne envTwo (str "q") fnBoom).1 = .error (.lit (str "boom")) := rfl
  rw [hb] at hc
  injection hc with hc
  injection hc with hc
  exact absurd hc (by decide)

/-- C4 amended: for a result set delivered by `ExecQuery`, an empty set
yields the not-found error; two or more objects yield the multiple-matches
error provided extraction succeeds on the first object; a single object
yields the extraction result; and whenever extraction of the first object
fails, that error is returned. -/
theorem claim_queryOne_cases {α : Type} (env : Env) (wql : List Char)
    (fn : WmiObj → Except Err α) (objs : List WmiObj)
    (h : env.query wql = .ok objs) :
    (objs = [] →
      queryOne env wql fn =
        (.error (.lit (str "vss: not found: " ++ wql)), [.execQuery wql])) ∧
    (∀ v rest out, objs = v :: rest → fn v = .ok out → rest ≠ [] →
      queryOne env wql fn =
        (.error (.lit (str "vss: multiple matches: " ++ wql)), [.execQuery wql])) ∧
    (∀ v out, objs = [v] → fn v = .ok out →
      queryOne env wql fn = (.ok out, [.execQuery wql])) ∧
    (∀ v rest e, objs = v :: rest → fn v = .error e →
      queryOne env wql fn = (.error e, [.execQuery wql])) := by
  refine ⟨?_, ?_, ?_, ?_⟩
  · rintro rfl
    simp [queryOne, h, queryOneLoop]
  · rintro v rest out rfl hv hne
    cases rest with
    | nil => exact absurd rfl hne
    | cons w rest2 => simp [queryOne, h, queryOneLoop, hv]
  · rintro v out rfl hv
    simp [queryOne, h, queryOneLoop, hv]
  · rintro v rest e rfl hv
    simp [queryOne, h, queryOneLoop, hv]

/-- Witness: the not-found branch of the amended claim at a concrete
environment whose query returns no objects. -/
theorem claim_queryOne_cases_witness :
    queryOne envC5 (str "q") fnBoom =
      (.error (.lit (str "vss: not found: " ++ str "q")), [.execQuery (str "q")]) :=
  (claim_queryOne_cases envC5 (str "q") fnBoom [] rfl).1 rfl

/-! ## Claim C7 -/

/-- The characters consumed by a successful `readHex` are hex digits. -/
theorem readHex_chars (k : Nat) : ∀ (s : List Char) (vs : List Nat) (rest : List Char),
    readHex k s = some (vs, rest) →
    ∃ pre, s = pre ++ rest ∧ ∀ c ∈ pre, (hexVal c).isSome := by
  induction k with
  | zero =>
    intro s vs rest h
    unfold readHex at h
    injection h with h
    rw [Prod.mk.injEq] at h
    obtain ⟨-, h2⟩ := h
    subst h2
    exact ⟨[], rfl, by simp⟩
  | succ k ih =>
    intro s vs rest h
    cases s with
    | nil => simp [readHex] at h
    | cons c s =>
      unfold readHex at h
      cases hv : hexVal c with
      | none => rw [hv] at h; simp at h
      | some v =>
        rw [hv] at h
        cases hr : readHex k s with
        | none => rw [hr] at h; simp at h
        | some p =>
          obtain ⟨vs2, rest2⟩ := p
          rw [hr] at h
          simp at h
          obtain ⟨-, h2⟩ := h
          subst h2
          obtain ⟨pre, hpre, hall⟩ := ih s vs2 rest2 hr
          refine ⟨c :: pre, by simp [hpre], ?_⟩
          intro x hx
          rcases List.mem_cons.mp hx with hx | hx
          · subst hx; simp [hv]
          · exact hall x hx

/-- Every character of a decodable dashed GUID body is a dash or a hex
digit. -/
theorem decodeDashed_chars (d : List Char) (g : GUID) (h : decodeDashed d = some g) :
    ∀ c ∈ d, c = '-' ∨ (hexVal c).isSome = true := by
  unfold decodeDashed at h
  repeat (split at h <;> try (injection h))
  rename_i x4 a da d2 h8 x3 b db d4 h4a x2 c dc d6 h4b x1 e de d8 h4c x0 f df h12 hval
  obtain ⟨p8, hp8, hc8⟩ := readHex_chars 8 _ _ _ h8
  obtain ⟨p4a, hp4a, hc4a⟩ := readHex_chars 4 _ _ _ h4a
  obtain ⟨p4b, hp4b, hc4b⟩ := readHex_chars 4 _ _ _ h4b
  obtain ⟨p4c, hp4c, hc4c⟩ := readHex_chars 4 _ _ _ h4c
  obtain ⟨p12, hp12, hc12⟩ := readHex_chars 12 _ _ _ h12
  rw [List.append_nil] at hp12
  subst hp12
  subst hp4c
  subst hp4b
  subst hp4a
  intro x hx
  rw [hp8] at hx
  simp only [List.mem_append, List.mem_cons] at hx
  rcases hx with hx | hx | hx
  · exact Or.inr (hc8 x hx)
  · exact Or.inl hx
  · rcases hx with hx | hx
    · exact Or.inr (hc4a x hx)
    · rcases hx with hx | hx
      · exact Or.inl hx
      · rcases hx with hx | hx
        · exact Or.inr (hc4b x hx)
        · rcases hx with hx | hx
          · exact Or.inl hx
          · rcases hx with hx | hx
            · exact Or.inr (hc4c x hx)
            · rcases hx with hx | hx
              · exact Or.inl hx
              · exact Or.inr (hc12 x hx)

/-- `fromSlash` is the identity on slash-free strings. -/
theorem fromSlash_eq_self (s : List Char) (h : ∀ c ∈ s, c ≠ '/') : fromSlash s = s := by
  unfold fromSlash
  induction s with
  | nil => rfl
  | cons c rest ih =>
    simp only [List.map_cons]
    rw [if_neg (h c (by simp)), ih (fun x hx => h x (by simp [hx]))]

/-- `equalFold` is reflexive. -/
theorem equalFold_refl (s : List Char) : equalFold s s = true := by
  simp [equalFold]

/-- Decomposition of the canonical (no trailing backslash) form. -/
theorem canonNoSlash_decomp (s : List Char) (h : isCanonVolNoSlash s = true) :
    ∃ body g, s = str "\\\\?\\Volume\x7b" ++ (body ++ ['}']) ∧ body.length = 36 ∧
      decodeDashed body = some g := by
  unfold isCanonVolNoSlash at h
  simp only [Bool.and_eq_true, decide_eq_true_eq] at h
  obtain ⟨⟨⟨hlen, hpfx⟩, hdec⟩, hlast⟩ := h
  obtain ⟨t, ht⟩ := List.isPrefixOf_iff_prefix.mp hpfx
  have hplen : (str "\\\\?\\Volume\x7b").length = 11 := rfl
  have htlen : t.length = 37 := by
    have := congrArg List.length ht
    simp [hplen] at this
    omega
  have htne : t ≠ [] := by
    intro he
    rw [he] at htlen
    simp at htlen
  have htlast : t.getLast? = some '}' := by
    rw [← ht] at hlast
    rwa [List.getLast?_append_of_ne_nil _ htne] at hlast
  have hbody : t.dropLast ++ ['}'] = t := List.dropLast_append_getLast? '}' htlast
  have hblen : t.dropLast.length = 36 := by
    rw [List.length_dropLast, htlen]
  have hdrop : s.drop 11 = t := by
    rw [← ht]
    exact List.drop_left' hplen
  have htake : (s.drop 11).take 36 = t.dropLast := by
    rw [hdrop]
    conv_lhs => rw [← hbody]
    exact List.take_left' hblen
  rw [htake] at hdec
  obtain ⟨g, hg⟩ := Option.isSome_iff_exists.mp hdec
  exact ⟨t.dropLast, g, by rw [← ht, hbody], hblen, hg⟩

/-- Hex digits are not forward slashes. -/
theorem hexDigit_ne_slash (c : Char) (h : (hexVal c).isSome = true) : c ≠ '/' := by
  intro he
  subst he
  simp [hexVal] at h

/-- No character of a canonical (no trailing backslash) volume name is a
forward slash. -/
theorem canonNoSlash_chars (s : List Char) (h : isCanonVolNoSlash s = true) :
    ∀ c ∈ s, c ≠ '/' := by
  obtain ⟨body, g, hs, hblen, hg⟩ := canonNoSlash_decomp s h
  have hbody := decodeDashed_chars body g hg
  have hpfxchars : ∀ x ∈ str "\\\\?\\Volume\x7b", x ≠ '/' := by decide
  intro c hc
  rw [hs] at hc
  simp only [List.mem_append, List.mem_cons] at hc
  rcases hc with hc | hc | hc
  · exact hpfxchars c hc
  · rcases hbody c hc with hd | hd
    · subst hd; decide
    · exact hexDigit_ne_slash c hd
  · simp at hc
    subst hc
    decide

/-- `volumeName` never panics: it is the `GoRes.ok` of `volumeNamePure`. -/
theorem volumeName_eq_pure (env : Env) (s : List Char) :
    volumeName env s = (GoRes.ok (volumeNamePure env s).1, (volumeNamePure env s).2) := by
  have happ := appendSep_eq_ok (fromSlash s)
  unfold volumeName volumeNamePure
  rw [happ]
  cases hm : env.mountVol (appendSepOk (fromSlash s)) with
  | error e =>
    simp only [hm]
    split_ifs <;> rfl
  | ok out =>
    simp only [hm]
    split_ifs <;> rfl

/-- The generic canonical-branch evaluation of `volumeNamePure`: if the
input is slash-free and the separator-appended name has the GUID length and
prefix, the (possibly appended) name is returned with no lookup. -/
theorem volumeNamePure_of_pfx (env : Env) (s : List Char)
    (hfs : fromSlash s = s)
    (hlen : (appendSepOk s).length = 49)
    (hpfx : (appendSepOk s).take 11 = str "\\\\?\\Volume\x7b") :
    volumeNamePure env s = (.ok (appendSepOk s), []) := by
  have hfold : hasPrefixFold (appendSepOk s) (str "\\\\?\\Volume\x7b") = true := by
    unfold hasPrefixFold
    have h11 : (str "\\\\?\\Volume\x7b").length = 11 := rfl
    rw [h11, hpfx, equalFold_refl]
    simp [hlen]
  unfold volumeNamePure
  rw [hfs]
  rw [if_neg (by simp [hlen, volGUIDLen, hfold])]

/-- Facts about a canonical form without the trailing backslash. -/
theorem canonNoSlash_props (u : List Char) (h : isCanonVolNoSlash u = true) :
    fromSlash u = u ∧ appendSepOk u = u ++ ['\\'] ∧ (u ++ ['\\']).length = 49 ∧
      (u ++ ['\\']).take 11 = str "\\\\?\\Volume\x7b" ∧
      isCanonVol (u ++ ['\\']) = true := by
  have hchars := canonNoSlash_chars u h
  obtain ⟨body, g, hu, hblen, hg⟩ := canonNoSlash_decomp u h
  have hlen48 : u.length = 48 := by
    unfold isCanonVolNoSlash at h
    simp only [Bool.and_eq_true, decide_eq_true_eq] at h
    exact h.1.1.1
  have hfs : fromSlash u = u := fromSlash_eq_self u hchars
  have hune : u ≠ [] := by
    intro he
    rw [he] at hlen48
    simp at hlen48
  have hlast : u.getLast? = some '}' := by
    unfold isCanonVolNoSlash at h
    simp only [Bool.and_eq_true, decide_eq_true_eq] at h
    exact h.2
  have happ : appendSepOk u = u ++ ['\\'] := by
    unfold appendSepOk
    rw [if_neg (by simp [hune])]
    rw [if_pos (by simp [hlast])]
  have htake : (u ++ ['\\']).take 11 = str "\\\\?\\Volume\x7b" := by
    rw [hu, List.append_assoc]
    exact List.take_left' rfl
  have hcv : isCanonVol (u ++ ['\\']) = true := by
    unfold isCanonVol
    rw [List.getLast?_concat, List.dropLast_concat]
    simp [h]
  exact ⟨hfs, happ, by simp [hlen48], htake, hcv⟩

/-- Facts about a canonical form with the trailing backslash. -/
theorem canonVol_props (u : List Char) (h : isCanonVol u = true) :
    fromSlash u = u ∧ appendSepOk u = u ∧ u.length = 49 ∧
      u.take 11 = str "\\\\?\\Volume\x7b" := by
  unfold isCanonVol at h
  simp only [Bool.and_eq_true, decide_eq_true_eq] at h
  obtain ⟨hlast, hcn⟩ := h
  have hchars' := canonNoSlash_chars _ hcn
  obtain ⟨body, g, hd, hblen, hg⟩ := canonNoSlash_decomp _ hcn
  have hlen48 : u.dropLast.length = 48 := by
    unfold isCanonVolNoSlash at hcn
    simp only [Bool.and_eq_true, decide_eq_true_eq] at hcn
    exact hcn.1.1.1
  have hune : u ≠ [] := by
    intro he
    rw [he] at hlast
    simp at hlast
  have hu : u.dropLast ++ ['\\'] = u := List.dropLast_append_getLast? '\\' hlast
  have hchars : ∀ c ∈ u, c ≠ '/' := by
    intro c hc
    rw [← hu] at hc
    simp only [List.mem_append, List.mem_cons] at hc
    rcases hc with hc | hc
    · exact hchars' c hc
    · simp at hc
      subst hc
      decide
  have hfs : fromSlash u = u := fromSlash_eq_self u hchars
  have happ : appendSepOk u = u := by
    unfold appendSepOk
    rw [if_neg (by simp [hune])]
    rw [if_neg (by simp [hlast])]
  have hlen : u.length = 49 := by
    have := congrArg List.length hu
    simp [hlen48] at this
    omega
  have htake : u.take 11 = str "\\\\?\\Volume\x7b" := by
    rw [← hu, hd, List.append_assoc, List.append_assoc]
    exact List.take_left' rfl
  exact ⟨hfs, happ, hlen, htake⟩

/-- C7: on inputs already in the canonical volume-GUID form, `volumeName`
returns the input unmodified apart from appending the trailing backslash
when it is missing, performing no mount-point lookup; consequently it is
idempotent: applied (in any environment) to its own successful output on a
canonical input, it returns that output unchanged. -/
theorem claim_volumeName_canonical (env env2 : Env) (s : List Char) :
    (isCanonVol s = true → volumeName env s = (.ok (.ok s), [])) ∧
    (isCanonVolNoSlash s = true →
      volumeName env s = (.ok (.ok (s ++ ['\\'])), [])) ∧
    (∀ r t, (isCanonVol s = true ∨ isCanonVolNoSlash s = true) →
      volumeName env s = (.ok (.ok r), t) →
      volumeName env2 r = (.ok (.ok r), [])) := by
  have core : ∀ (e : Env) (u : List Char),
      isCanonVol u = true ∨ isCanonVolNoSlash u = true →
      volumeName e u = (.ok (.ok (appendSepOk u)), []) ∧
        isCanonVol (appendSepOk u) = true := by
    intro e u hu
    rcases hu with hu | hu
    · obtain ⟨hfs, happ, hlen, htake⟩ := canonVol_props u hu
      rw [volumeName_eq_pure, volumeNamePure_of_pfx e u hfs (by rw [happ]; exact hlen)
        (by rw [happ]; exact htake)]
      exact ⟨rfl, by rw [happ]; exact hu⟩
    · obtain ⟨hfs, happ, hlen, htake, hcv⟩ := canonNoSlash_props u hu
      rw [volumeName_eq_pure, volumeNamePure_of_pfx e u hfs (by rw [happ]; exact hlen)
        (by rw [happ]; exact htake)]
      exact ⟨rfl, by rw [happ]; exact hcv⟩
  refine ⟨?_, ?_, ?_⟩
  · intro h
    have := (core env s (Or.inl h)).1
    obtain ⟨-, happ, -, -⟩ := canonVol_props s h
    rw [happ] at this
    exact this
  · intro h
    have := (core env s (Or.inr h)).1
    obtain ⟨-, happ, -, -, -⟩ := canonNoSlash_props s h
    rw [happ] at this
    exact this
  · intro r t hcanon hrun
    obtain ⟨hvol, hcv⟩ := core env s hcanon
    rw [hvol] at hrun
    have hr : appendSepOk s = r := by
      have h1 := congrArg Prod.fst hrun
      simp at h1
      exact h1
    rw [hr] at hcv
    have := (core env2 r (Or.inl hcv)).1
    obtain ⟨-, happ2, -, -⟩ := canonVol_props r hcv
    rw [happ2] at this
    exact this

/-- Witness: `volumeName` on a concrete canonical volume name without the
trailing backslash appends it and performs no lookup. -/
theorem claim_volumeName_canonical_witness :
    volumeName okEnv (str "\\\\?\\Volume{1c77ff2a-47a2-4c75-991c-9b26e78c1d6a}") =
      (.ok (.ok (str "\\\\?\\Volume{1c77ff2a-47a2-4c75-991c-9b26e78c1d6a}" ++ ['\\'])), []) :=
  (claim_volumeName_canonical okEnv okEnv
    (str "\\\\?\\Volume{1c77ff2a-47a2-4c75-991c-9b26e78c1d6a}")).2.1 (by decide)

/-- C6 counterexample: `Remove` given a shadow-copy device path (not a
GUID).  The claim says every non-GUID name is resolved as a symbolic link
and, since this name is not a symlink (readlink fails in this environment),
an error should be returned with no shadow copy deleted.  Instead `Remove`
takes its device-path branch: it never calls readlink, issues the WMI
delete, and succeeds. -/
theorem claim_remove_symlink_cex :
    newGUID devName1 = none ∧
    (okEnv.readlinkRes devName1 = .error (.lit (str "ENOENT"))) ∧
    (Remove okEnv devName1).1 = .ok () ∧
    ((Remove okEnv devName1).2.any isCallDelete) = true ∧
    ((Remove okEnv devName1).2.any isReadlinkEff) = false := by
  exact ⟨rfl, rfl, rfl, rfl, rfl⟩

/-- Helper: `getByDev` always returns the symlink argument it was given as
the second component of a successful result. -/
theorem getByDev_fst_ok (env : Env) (wql symlink : List Char) (sc : ShadowCopy)
    (sl : List Char) (h : (getByDev env wql symlink).1 = .ok (sc, sl)) :
    sl = symlink := by
  unfold getByDev at h
  rcases hw : wmiExec env (queryOne env wql unpack) with ⟨r, t⟩
  rw [hw] at h
  cases r with
  | error e => simp at h
  | ok sc2 => simp at h; exact h.2.symm

/-- C6 amended: the symlink-resolution behaviour of `Remove` (current
revision, for names that are neither GUIDs nor already shadow-copy device
paths) and of `Delete` (earlier revision, for all non-GUID names).
With the admin gate passed: a failed readlink or a resolved target without
the `\\?\GLOBALROOT\Device\HarddiskVolumeShadowCopy` prefix yields an error
with only the readlink in the trace — no WMI delete; when the shadow copy
was successfully deleted, the symlink directory is removed; and the symlink
path removed by `Remove` is exactly the cleaned input name. -/
theorem claim_remove_symlink (env : Env) (name : List Char) :
    (env.admin = true → newGUID name = none →
      hasPrefixFold (cleanPath name) scDevRoot = false →
      (∀ e, env.readlinkRes (cleanPath name) = .error e →
        Remove env name =
          (.error (.wrap (str "vss: not a symlink: " ++ cleanPath name) e),
            [.readlink (cleanPath name)])) ∧
      (∀ tgt, env.readlinkRes (cleanPath name) = .ok tgt →
        hasPrefixFold (str "\\\\?\\" ++ tgt.take 256) scDevRoot = false →
        Remove env name =
          (.error (.lit (str "vss: not a shadow copy symlink: " ++ cleanPath name)),
            [.readlink (cleanPath name)]))) ∧
    (newGUID name = none → hasPrefixFold (cleanPath name) scDevRoot = false →
      ∀ sc sl t1, get env name = (.ok (sc, sl), t1) → sl = cleanPath name) ∧
    (env.admin = true → newGUID name = none →
      ∀ sc sl t1 t2, get env name = (.ok (sc, sl), t1) → sl ≠ [] →
        scRemove env sc = (.ok (), t2) →
        Remove env name = (env.removeDirRes sl, t1 ++ t2 ++ [.removeDirectory sl])) ∧
    (∀ e, newGUID name = none → env.readlinkRes name = .error e →
      V0.Delete env name =
        (.error (.wrap (str "vss: not a valid symlink: " ++ name) e),
          [.readlink name])) ∧
    (∀ tgt, newGUID name = none → env.readlinkRes name = .ok tgt →
      ((trimBackslash (str "\\\\?\\" ++ tgt.take 256)).length = 260 ∨
        hasPrefix (trimBackslash (str "\\\\?\\" ++ tgt.take 256)) scDevRoot = false) →
      V0.Delete env name =
        (.error (.lit (str "vss: not a valid shadow copy symlink: " ++ name)),
          [.readlink name])) ∧
    (∀ tgt t2, newGUID name = none → env.readlinkRes name = .ok tgt →
      ¬ ((trimBackslash (str "\\\\?\\" ++ tgt.take 256)).length = 260 ∨
        hasPrefix (trimBackslash (str "\\\\?\\" ++ tgt.take 256)) scDevRoot = false) →
      V0.wmiExec env
          (V0.deleteByDeviceObject env (trimBackslash (str "\\\\?\\" ++ tgt.take 256)))
        = (.ok (), t2) →
      V0.Delete env name =
        (env.removeDirRes name, .readlink name :: (t2 ++ [.removeDirectory name]))) := by
  refine ⟨?_, ?_, ?_, ?_, ?_, ?_⟩
  · intro ha hg hnp
    constructor
    · intro e hrl
      unfold Remove get
      simp only [ha, hg, hnp, hrl]
      simp
    · intro tgt hrl hbad
      unfold Remove get
      simp only [ha, hg, hnp, hrl, hbad]
      simp
  · intro hg hnp sc sl t1 hget
    unfold get at hget
    simp only [hg, hnp] at hget
    cases hrl : env.readlinkRes (cleanPath name) with
    | error e => rw [hrl] at hget; simp at hget
    | ok tgt =>
      rw [hrl] at hget
      by_cases hpf : hasPrefixFold (str "\\\\?\\" ++ tgt.take 256) scDevRoot = true
      · simp only [hpf] at hget
        simp at hget
        exact getByDev_fst_ok env _ _ sc sl hget.1
      · simp only [Bool.not_eq_true] at hpf
        simp only [hpf] at hget
        simp at hget
  · intro ha hg sc sl t1 t2 hget hsl hsr
    unfold Remove
    simp only [ha, hg, hget, hsr]
    cases hrd : env.removeDirRes sl with
    | error e => simp [hsl, hrd]
    | ok u => simp [hsl, hrd]
  · intro e hg hrl
    unfold V0.Delete V0.parseID
    simp only [hg, hrl]
  · intro tgt hg hrl hbad
    unfold V0.Delete V0.parseID
    simp only [hg, hrl]
    rw [if_pos (by simpa using hbad)]
  · intro tgt t2 hg hrl hgood hw
    unfold V0.Delete V0.parseID
    simp only [hg, hrl]
    rw [if_neg (by simpa using hgood)]
    rw [hw]
    cases hrd : env.removeDirRes name with
    | error e => simp [hrd]
    | ok u => simp [hrd]

/-- C6 witness: in the test environment, `Remove` on a non-GUID, non-device
name whose readlink fails returns the wrapped not-a-symlink error with only
the readlink effect in the trace. -/
theorem claim_remove_symlink_witness :
    Remove okEnv (str "link") =
      (.error (.wrap (str "vss: not a symlink: " ++ cleanPath (str "link"))
          (.lit (str "ENOENT"))),
        [.readlink (cleanPath (str "link"))]) :=
  ((claim_remove_symlink okEnv (str "link")).1 rfl rfl rfl).1 _ rfl

/-- The digit characters produced by `pad`: recognized by `isDig`, valued by
`dval`, and distinct from the sign characters. -/
theorem digit_facts (i : Nat) (h : i < 10) :
    isDig ((str "0123456789").getD i '0') = true ∧
    dval ((str "0123456789").getD i '0') = i ∧
    (str "0123456789").getD i '0' ≠ '-' ∧
    (str "0123456789").getD i '0' ≠ '+' := by
  interval_cases i <;> exact ⟨rfl, rfl, by decide, by decide⟩

/-- `pad` produces exactly `k` characters. -/
theorem pad_length (k n : Nat) : (pad k n).length = k := by
  induction k generalizing n with
  | zero => rfl
  | succ k ih => simp [pad, ih]

/-- Every character of `pad` is a digit. -/
theorem pad_isDig (k n : Nat) : ∀ c ∈ pad k n, isDig c = true := by
  induction k generalizing n with
  | zero => intro c hc; simp [pad] at hc
  | succ k ih =>
    intro c hc
    rw [show pad (k + 1) n
        = pad k (n / 10) ++ [(str "0123456789").getD (n % 10) '0'] from rfl] at hc
    rcases List.mem_append.1 hc with hc | hc
    · exact ih _ c hc
    · rw [List.mem_singleton] at hc
      subst hc
      exact (digit_facts (n % 10) (Nat.mod_lt _ (by norm_num))).1

/-- `allDigits` holds of every `pad` output. -/
theorem allDigits_pad (k n : Nat) : allDigits (pad k n) = true := by
  simp only [allDigits, List.all_eq_true]
  exact pad_isDig k n

/-- `digitsVal` over an appended final digit. -/
theorem digitsVal_append_one (a : List Char) (c : Char) :
    digitsVal (a ++ [c]) = digitsVal a * 10 + dval c := by
  simp [digitsVal, List.foldl_append]

/-- `digitsVal` inverts `pad` on values that fit. -/
theorem digitsVal_pad (k n : Nat) (h : n < 10 ^ k) : digitsVal (pad k n) = n := by
  induction k generalizing n with
  | zero =>
    simp at h
    simp [h, pad, digitsVal]
  | succ k ih =>
    have h10 : n / 10 < 10 ^ k := by
      rw [Nat.div_lt_iff_lt_mul (by norm_num)]
      calc n < 10 ^ (k + 1) := h
        _ = 10 ^ k * 10 := by ring
    rw [show pad (k + 1) n
      = pad k (n / 10) ++ [(str "0123456789").getD (n % 10) '0'] from rfl]
    rw [digitsVal_append_one, ih _ h10,
      (digit_facts (n % 10) (Nat.mod_lt _ (by norm_num))).2.1]
    omega

/-- Explicit two-character form of `pad 2`. -/
theorem pad2_eq (n : Nat) :
    pad 2 n = [(str "0123456789").getD (n / 10 % 10) '0',
               (str "0123456789").getD (n % 10) '0'] := rfl

/-- Explicit four-character form of `pad 4`. -/
theorem pad4_eq (n : Nat) :
    pad 4 n = [(str "0123456789").getD (n / 10 / 10 / 10 % 10) '0',
               (str "0123456789").getD (n / 10 / 10 % 10) '0',
               (str "0123456789").getD (n / 10 % 10) '0',
               (str "0123456789").getD (n % 10) '0'] := rfl

/-- Explicit six-character form of `pad 6`. -/
theorem pad6_eq (n : Nat) :
    pad 6 n = [(str "0123456789").getD (n / 10 / 10 / 10 / 10 / 10 % 10) '0',
               (str "0123456789").getD (n / 10 / 10 / 10 / 10 % 10) '0',
               (str "0123456789").getD (n / 10 / 10 / 10 % 10) '0',
               (str "0123456789").getD (n / 10 / 10 % 10) '0',
               (str "0123456789").getD (n / 10 % 10) '0',
               (str "0123456789").getD (n % 10) '0'] := rfl

/-- `getnum` (fixed or not) consumes a zero-padded two-digit field. -/
theorem getnum_pad2 (b : Bool) (n : Nat) (rest : List Char) (hn : n < 100) :
    getnum b (pad 2 n ++ rest) = some (n, rest) := by
  have h1 := digit_facts (n / 10 % 10) (Nat.mod_lt _ (by norm_num))
  have h2 := digit_facts (n % 10) (Nat.mod_lt _ (by norm_num))
  rw [pad2_eq]
  generalize hc1 : (str "0123456789").getD (n / 10 % 10) '0' = c1 at h1 ⊢
  generalize hc2 : (str "0123456789").getD (n % 10) '0' = c2 at h2 ⊢
  simp only [List.cons_append, List.nil_append]
  simp [getnum, h1.1, h2.1, h1.2.1, h2.2.1]
  omega

/-- `parseYear` consumes a zero-padded four-digit year. -/
theorem parseYear_pad (n : Nat) (rest : List Char) (hn : n < 10000) :
    parseYear (pad 4 n ++ rest) = some (n, rest) := by
  have h1 := digit_facts (n / 10 / 10 / 10 % 10) (Nat.mod_lt _ (by norm_num))
  have h2 := digit_facts (n / 10 / 10 % 10) (Nat.mod_lt _ (by norm_num))
  have h3 := digit_facts (n / 10 % 10) (Nat.mod_lt _ (by norm_num))
  have h4 := digit_facts (n % 10) (Nat.mod_lt _ (by norm_num))
  rw [pad4_eq]
  generalize hc1 : (str "0123456789").getD (n / 10 / 10 / 10 % 10) '0' = c1 at h1 ⊢
  generalize hc2 : (str "0123456789").getD (n / 10 / 10 % 10) '0' = c2 at h2 ⊢
  generalize hc3 : (str "0123456789").getD (n / 10 % 10) '0' = c3 at h3 ⊢
  generalize hc4 : (str "0123456789").getD (n % 10) '0' = c4 at h4 ⊢
  simp only [List.cons_append, List.nil_append]
  simp [parseYear, digitsVal, h1.1, h2.1, h3.1, h4.1, h1.2.1, h2.2.1, h3.2.1, h4.2.1]
  omega

/-- `parseFrac` consumes a period followed by a zero-padded six-digit
microsecond field, scaling to nanoseconds. -/
theorem parseFrac_pad (n : Nat) (rest : List Char) (hn : n < 1000000) :
    parseFrac ('.' :: (pad 6 n ++ rest)) = some (n * 1000, rest) := by
  have h1 := digit_facts (n / 10 / 10 / 10 / 10 / 10 % 10) (Nat.mod_lt _ (by norm_num))
  have h2 := digit_facts (n / 10 / 10 / 10 / 10 % 10) (Nat.mod_lt _ (by norm_num))
  have h3 := digit_facts (n / 10 / 10 / 10 % 10) (Nat.mod_lt _ (by norm_num))
  have h4 := digit_facts (n / 10 / 10 % 10) (Nat.mod_lt _ (by norm_num))
  have h5 := digit_facts (n / 10 % 10) (Nat.mod_lt _ (by norm_num))
  have h6 := digit_facts (n % 10) (Nat.mod_lt _ (by norm_num))
  rw [pad6_eq]
  generalize hc1 : (str "0123456789").getD (n / 10 / 10 / 10 / 10 / 10 % 10) '0' = c1 at h1 ⊢
  generalize hc2 : (str "0123456789").getD (n / 10 / 10 / 10 / 10 % 10) '0' = c2 at h2 ⊢
  generalize hc3 : (str "0123456789").getD (n / 10 / 10 / 10 % 10) '0' = c3 at h3 ⊢
  generalize hc4 : (str "0123456789").getD (n / 10 / 10 % 10) '0' = c4 at h4 ⊢
  generalize hc5 : (str "0123456789").getD (n / 10 % 10) '0' = c5 at h5 ⊢
  generalize hc6 : (str "0123456789").getD (n % 10) '0' = c6 at h6 ⊢
  simp only [List.cons_append, List.nil_append]
  simp [parseFrac, timeAtoi, allDigits, digitsVal, h1.1, h2.1, h3.1, h4.1, h5.1, h6.1,
    h1.2.1, h2.2.1, h3.2.1, h4.2.1, h5.2.1, h6.2.1, h1.2.2.1, h1.2.2.2]
  omega

/-- `goAtoi` on a sign character followed by a zero-padded three-digit
offset. -/
theorem goAtoi_sign_pad3 (neg : Bool) (n : Nat) (hn : n < 1000) :
    goAtoi ((if neg then '-' else '+') :: pad 3 n) =
      some (if neg then -(n : Int) else (n : Int)) := by
  have hne : pad 3 n ≠ [] := by
    intro h
    have := pad_length 3 n
    rw [h] at this
    simp at this
  have had : allDigits (pad 3 n) = true := allDigits_pad 3 n
  have hdv : digitsVal (pad 3 n) = n := digitsVal_pad 3 n (by norm_num; omega)
  cases neg <;> simp [goAtoi, hne, had, hdv]

/-- `parseCivil` on the 21-character civil part of a rendered CIM datetime
recovers the fields (fraction scaled to nanoseconds). -/
theorem parseCivil_render (y mo d h mi s micro : Nat)
    (hy : y < 10000) (hmo1 : 1 ≤ mo) (hmo2 : mo ≤ 12) (hd1 : 1 ≤ d)
    (hd2 : d ≤ daysIn mo y) (hh : h < 24) (hmi : mi < 60) (hs : s < 60)
    (hmicro : micro < 1000000) :
    parseCivil (pad 4 y ++ (pad 2 mo ++ (pad 2 d ++ (pad 2 h ++ (pad 2 mi
        ++ (pad 2 s ++ '.' :: pad 6 micro)))))) =
      some ⟨y, mo, d, h, mi, s, micro * 1000⟩ := by
  have hd100 : d < 100 := by
    have : daysIn mo y ≤ 31 := by
      unfold daysIn
      split_ifs <;> omega
    omega
  have e7 : parseFrac ('.' :: pad 6 micro) = some (micro * 1000, []) := by
    have := parseFrac_pad micro [] hmicro
    simpa using this
  have e1 := parseYear_pad y
    (pad 2 mo ++ (pad 2 d ++ (pad 2 h ++ (pad 2 mi ++ (pad 2 s ++ '.' :: pad 6 micro))))) hy
  have e2 := getnum_pad2 true mo
    (pad 2 d ++ (pad 2 h ++ (pad 2 mi ++ (pad 2 s ++ '.' :: pad 6 micro)))) (by omega)
  have e3 := getnum_pad2 true d
    (pad 2 h ++ (pad 2 mi ++ (pad 2 s ++ '.' :: pad 6 micro))) hd100
  have e4 := getnum_pad2 false h
    (pad 2 mi ++ (pad 2 s ++ '.' :: pad 6 micro)) (by omega)
  have e5 := getnum_pad2 true mi (pad 2 s ++ '.' :: pad 6 micro) (by omega)
  have e6 := getnum_pad2 true s ('.' :: pad 6 micro) (by omega)
  unfold parseCivil
  simp only [e1, e2, e3, e4, e5, e6, e7]
  rw [if_neg (by omega), if_neg (by omega), if_neg (by omega),
    if_neg (by simp), if_neg (by omega), if_neg (by omega)]

/-- A rendered CIM datetime splits into its 21-character civil part and its
4-character offset suffix. -/
theorem renderCIM_decomp (y mo d h mi s micro : Nat) (neg : Bool) (off : Nat) :
    renderCIM y mo d h mi s micro neg off =
      (pad 4 y ++ (pad 2 mo ++ (pad 2 d ++ (pad 2 h ++ (pad 2 mi
          ++ (pad 2 s ++ '.' :: pad 6 micro))))))
        ++ ((if neg then '-' else '+') :: pad 3 off) := by
  simp [renderCIM, List.append_assoc]

/-- `parseDateTime` on a malformed string: wrong length or no sign character
at index 21. -/
theorem parseDateTime_badForm (dt : List Char)
    (h : dt.length ≠ 25 ∨ (dt.get? 21 ≠ some '+' ∧ dt.get? 21 ≠ some '-')) :
    parseDateTime dt = .error (.lit (str "vss: invalid datetime: " ++ dt)) := by
  unfold parseDateTime
  rw [if_pos]
  rcases h with h | ⟨h1, h2⟩
  · exact Or.inl h
  · exact Or.inr ⟨h2, h1⟩

/-- `parseDateTime` on a well-formed string whose offset is outside
`[-720, 720]` minutes. -/
theorem parseDateTime_badOffset (dt : List Char) (off : Int)
    (h1 : dt.length = 25) (h2 : dt.get? 21 = some '+' ∨ dt.get? 21 = some '-')
    (h3 : goAtoi (dt.drop 21) = some off) (h4 : off < -720 ∨ 720 < off) :
    parseDateTime dt = .error (.lit (str "vss: invalid UTC offset: " ++ dt)) := by
  unfold parseDateTime
  rw [if_neg]
  · simp only [h3]
    rw [if_pos h4]
  · intro hcon
    rcases hcon with hA | ⟨hB, hC⟩
    · exact hA h1
    · rcases h2 with h2 | h2
      · exact hC h2
      · exact hB h2

/-- `parseDateTime` recovers the denoted instant from a rendered CIM
datetime with in-range fields. -/
theorem parseDateTime_render (y mo d h mi s micro : Nat) (neg : Bool) (off : Nat)
    (hy : y < 10000) (hmo1 : 1 ≤ mo) (hmo2 : mo ≤ 12) (hd1 : 1 ≤ d)
    (hd2 : d ≤ daysIn mo y) (hh : h < 24) (hmi : mi < 60) (hs : s < 60)
    (hmicro : micro < 1000000) (hoff : off ≤ 720) :
    parseDateTime (renderCIM y mo d h mi s micro neg off) =
      .ok (cimDenotedNanos y mo d h mi s micro neg off) := by
  have hdec := renderCIM_decomp y mo d h mi s micro neg off
  set front := pad 4 y ++ (pad 2 mo ++ (pad 2 d ++ (pad 2 h ++ (pad 2 mi
      ++ (pad 2 s ++ '.' :: pad 6 micro))))) with hfront
  have hfl : front.length = 21 := by
    rw [hfront]
    simp [pad_length]
  have htake : (renderCIM y mo d h mi s micro neg off).take 21 = front := by
    rw [hdec, ← hfl, List.take_left]
  have hdrop : (renderCIM y mo d h mi s micro neg off).drop 21 =
      (if neg then '-' else '+') :: pad 3 off := by
    rw [hdec, ← hfl, List.drop_left]
  have hlen : (renderCIM y mo d h mi s micro neg off).length = 25 := by
    rw [hdec]
    simp [hfl, pad_length]
  have hget : (renderCIM y mo d h mi s micro neg off).get? 21 =
      some (if neg then '-' else '+') := by
    rw [hdec, List.get?_append_right hfl.le, hfl]
    simp
  have hoa : goAtoi ((renderCIM y mo d h mi s micro neg off).drop 21) =
      some (if neg then -(off : Int) else (off : Int)) := by
    rw [hdrop]
    exact goAtoi_sign_pad3 neg off (by omega)
  have hciv : parseCivil ((renderCIM y mo d h mi s micro neg off).take 21) =
      some ⟨y, mo, d, h, mi, s, micro * 1000⟩ := by
    rw [htake, hfront]
    exact parseCivil_render y mo d h mi s micro hy hmo1 hmo2 hd1 hd2 hh hmi hs hmicro
  unfold parseDateTime
  rw [if_neg (by
    intro hcon
    rcases hcon with hA | ⟨hB, hC⟩
    · exact hA hlen
    · cases neg with
      | true => exact hB (by simpa using hget)
      | false => exact hC (by simpa using hget))]
  simp only [hoa]
  rw [if_neg (by cases neg <;> simp <;> omega)]
  simp only [hciv]
  unfold civilToUnixNanos cimDenotedNanos
  cases neg <;> push_cast <;> ring_nf

/-- C3: `parseDateTime` on a CIM datetime `yyyymmddHHMMSS.mmmmmm±UUU` whose
calendar fields are in range and whose offset magnitude is at most 720
minutes returns the instant denoted by the timestamp in the fixed zone at
that offset (as Unix nanoseconds; the final conversion to the local zone
does not change the instant); a string of a different length, or without a
sign character at index 21, is rejected, as is one whose parsed offset lies
outside `[-720, 720]`. -/
theorem claim_parse_datetime :
    (∀ y mo d h mi s micro (neg : Bool) off,
      y < 10000 → 1 ≤ mo → mo ≤ 12 → 1 ≤ d → d ≤ daysIn mo y →
      h < 24 → mi < 60 → s < 60 → micro < 1000000 → off ≤ 720 →
      parseDateTime (renderCIM y mo d h mi s micro neg off) =
        .ok (cimDenotedNanos y mo d h mi s micro neg off)) ∧
    (∀ dt : List Char,
      dt.length ≠ 25 ∨ (dt.get? 21 ≠ some '+' ∧ dt.get? 21 ≠ some '-') →
      parseDateTime dt = .error (.lit (str "vss: invalid datetime: " ++ dt))) ∧
    (∀ (dt : List Char) (off : Int), dt.length = 25 →
      (dt.get? 21 = some '+' ∨ dt.get? 21 = some '-') →
      goAtoi (dt.drop 21) = some off → (off < -720 ∨ 720 < off) →
      parseDateTime dt = .error (.lit (str "vss: invalid UTC offset: " ++ dt))) := by
  refine ⟨?_, ?_, ?_⟩
  · intro y mo d h mi s micro neg off hy hmo1 hmo2 hd1 hd2 hh hmi hs hmicro hoff
    exact parseDateTime_render y mo d h mi s micro neg off
      hy hmo1 hmo2 hd1 hd2 hh hmi hs hmicro hoff
  · intro dt hbad
    exact parseDateTime_badForm dt hbad
  · intro dt off h1 h2 h3 h4
    exact parseDateTime_badOffset dt off h1 h2 h3 h4

/-- C3 witness: the repository's own test vector
`"20231213012250.108124-300"` parses to `1702448570108124000` ns, a short
string is rejected, and an offset of `-721` is rejected. -/
theorem claim_parse_datetime_witness :
    parseDateTime (renderCIM 2023 12 13 1 22 50 108124 true 300) =
      .ok (cimDenotedNanos 2023 12 13 1 22 50 108124 true 300) ∧
    renderCIM 2023 12 13 1 22 50 108124 true 300 = str "20231213012250.108124-300" ∧
    cimDenotedNanos 2023 12 13 1 22 50 108124 true 300 = 1702448570108124000 ∧
    parseDateTime (str "20231213") =
      .error (.lit (str "vss: invalid datetime: " ++ str "20231213")) ∧
    parseDateTime (str "20231213012250.108124-721") =
      .error (.lit (str "vss: invalid UTC offset: " ++ str "20231213012250.108124-721")) :=
  ⟨claim_parse_datetime.1 2023 12 13 1 22 50 108124 true 300 (by norm_num) (by norm_num)
      (by norm_num) (by norm_num) (by decide) (by norm_num) (by norm_num) (by norm_num)
      (by norm_num) (by norm_num),
    by decide,
    by decide,
    claim_parse_datetime.2.1 (str "20231213") (Or.inl (by decide)),
    claim_parse_datetime.2.2 (str "20231213012250.108124-721") (-721) (by decide)
      (Or.inr (by decide)) (by decide) (by decide)⟩

end GoVss
